import Mathlib

/-!
Verification of the positional-fragment-to-record reconstruction engine of the
Coorong District Council development-application scraper.  The definitions below
are a shallow embedding of the functions in src/scraper.ts (with the page-level
variant in src/scraper.js); JavaScript numbers are modelled as rationals.

On division: JavaScript division by zero produces NaN or a signed infinity,
while rational division by zero in this model produces the junk value 0.  Every
place the embedded code divides by a possibly-zero quantity, the result is only
compared with `> 50`, a comparison that both NaN and 0 fail, so the embedding
agrees with the JavaScript observable behaviour at every use site.  Where a
claim is specifically about the non-finite result itself, an Option-valued
variant (`jsDiv`, `getVerticalOverlapPercentageJs`) models "not a real number"
as `none`.
-/

/-- A bounding rectangle, from the `Rectangle` interface of src/scraper.ts. -/
structure Rectangle where
  x : ℚ
  y : ℚ
  width : ℚ
  height : ℚ
deriving DecidableEq

/-- An element (text plus bounding rectangle) in a PDF document, from the
`Element` interface of src/scraper.ts (`Element extends Rectangle`). -/
structure Element where
  text : String
  x : ℚ
  y : ℚ
  width : ℚ
  height : ℚ
deriving DecidableEq

/-- The bounding rectangle of an element (the TypeScript code uses structural
subtyping; the embedding makes the coercion explicit). -/
def Element.toRect (e : Element) : Rectangle :=
  { x := e.x, y := e.y, width := e.width, height := e.height }

/-- `intersect` from src/scraper.ts: the intersection of two rectangles, or the
zero rectangle when they do not overlap. -/
def intersect (rectangle1 rectangle2 : Rectangle) : Rectangle :=
  let x1 := max rectangle1.x rectangle2.x
  let y1 := max rectangle1.y rectangle2.y
  let x2 := min (rectangle1.x + rectangle1.width) (rectangle2.x + rectangle2.width)
  let y2 := min (rectangle1.y + rectangle1.height) (rectangle2.y + rectangle2.height)
  if x2 ≥ x1 ∧ y2 ≥ y1 then
    { x := x1, y := y1, width := x2 - x1, height := y2 - y1 }
  else
    { x := 0, y := 0, width := 0, height := 0 }

/-- `getArea` from src/scraper.ts. -/
def getArea (rectangle : Rectangle) : ℚ := rectangle.width * rectangle.height

/-- `getPercentageOfElementInRectangle` from src/scraper.ts: the fraction of an
element lying within a rectangle, as a percentage, with an explicit guard for a
zero-area element. -/
def getPercentageOfElementInRectangle (element : Element) (rectangle : Rectangle) : ℚ :=
  let elementArea := getArea element.toRect
  let intersectionArea := getArea (intersect rectangle element.toRect)
  if elementArea = 0 then 0 else intersectionArea * 100 / elementArea

/-- `getVerticalOverlapPercentage` from src/scraper.ts: the vertical overlap of
two elements as a percentage of the second element's height.  The division by
`element2.height` has no zero guard; see `getVerticalOverlapPercentageJs` for
the model of the non-finite JavaScript result. -/
def getVerticalOverlapPercentage (element1 element2 : Element) : ℚ :=
  let y1 := max element1.y element2.y
  let y2 := min (element1.y + element1.height) (element2.y + element2.height)
  if y2 < y1 then 0 else (y2 - y1) * 100 / element2.height

/-- `isVerticalOverlap` from src/scraper.ts. -/
def isVerticalOverlap (element1 element2 : Element) : Prop :=
  element2.y < element1.y + element1.height ∧ element2.y + element2.height > element1.y

instance (element1 element2 : Element) : Decidable (isVerticalOverlap element1 element2) :=
  inferInstanceAs (Decidable (_ ∧ _))

/-- One iteration of the loop body of `getRowTop` from src/scraper.ts. -/
def rowTopStep (startElement : Element) (top : ℚ) (element : Element) : ℚ :=
  if element.y < startElement.y + startElement.height ∧ element.y + element.height > startElement.y then
    if getVerticalOverlapPercentage startElement element > 50 then
      if element.y < top then element.y else top
    else top
  else top

/-- `getRowTop` from src/scraper.ts: the smallest y co-ordinate among the
elements in the same row as `startElement`, guarding against extremely tall
elements with a 50% overlap test. -/
def getRowTop (elements : List Element) (startElement : Element) : ℚ :=
  elements.foldl (rowTopStep startElement) startElement.y

/-- JavaScript division that records a non-finite result (NaN from 0/0, signed
infinity otherwise) as `none` instead of producing a junk rational. -/
def jsDiv (numerator denominator : ℚ) : Option ℚ :=
  if denominator = 0 then none else some (numerator / denominator)

/-- `getVerticalOverlapPercentage` with the division modelled by `jsDiv`, so
that the absence of a zero guard on `element2.height` is observable. -/
def getVerticalOverlapPercentageJs (element1 element2 : Element) : Option ℚ :=
  let y1 := max element1.y element2.y
  let y2 := min (element1.y + element1.height) (element2.y + element2.height)
  if y2 < y1 then some 0 else jsDiv ((y2 - y1) * 100) element2.height

/-- `getPercentageOfElementInRectangle` with the division modelled by `jsDiv`;
its explicit zero-area guard means the division is always by a non-zero
quantity. -/
def getPercentageOfElementInRectangleJs (element : Element) (rectangle : Rectangle) : Option ℚ :=
  if getArea element.toRect = 0 then some 0
  else jsDiv (getArea (intersect rectangle element.toRect) * 100) (getArea element.toRect)

/-- Lower-casing as JavaScript's `toLowerCase`, character by character. -/
def jsToLower (s : String) : String := ⟨s.data.map Char.toLower⟩

/-- Trimming as JavaScript's `trim`: remove leading and trailing whitespace. -/
def jsTrim (s : String) : String :=
  ⟨((s.data.dropWhile Char.isWhitespace).reverse.dropWhile Char.isWhitespace).reverse⟩

/-- `startsWith` as in JavaScript, on the underlying characters. -/
def jsStartsWith (s t : String) : Bool := t.data.isPrefixOf s.data

/-- Splitting on a single space, as JavaScript's `split(" ")` (consecutive
separators produce empty pieces). -/
def splitOnSpaceAux : List Char → List (List Char)
  | [] => [[]]
  | c :: rest =>
    if c = ' ' then [] :: splitOnSpaceAux rest
    else
      match splitOnSpaceAux rest with
      | [] => [[c]]
      | g :: gs => (c :: g) :: gs

/-- `address.split(" ")` from `formatAddress`. -/
def jsSplitOnSpace (s : String) : List String := (splitOnSpaceAux s.data).map String.mk

/-- One Wagner-Fischer row update for the Levenshtein distance: `diag` is the
entry diagonally above, `left` the entry just computed, and the list pairs each
source character with the entry directly above it. -/
def levRowAux (c : Char) : List (Char × ℕ) → ℕ → ℕ → List ℕ
  | [], _, _ => []
  | (sc, up) :: rest, diag, left =>
    let cur := min (min (up + 1) (left + 1)) (diag + (if sc = c then 0 else 1))
    cur :: levRowAux c rest up cur

/-- A full Wagner-Fischer row for target character `c`, given the previous
row. -/
def levRow (s : List Char) (prevRow : List ℕ) (c : Char) : List ℕ :=
  let first := prevRow.headD 0 + 1
  first :: levRowAux c (s.zip prevRow.tail) (prevRow.headD 0) first

/-- Levenshtein edit distance between two strings (Wagner-Fischer), the
distance measure used by the didyoumean2 library in EDIT_DISTANCE mode. -/
def levDistance (s t : String) : ℕ :=
  (t.data.foldl (levRow s.data) (List.range (s.data.length + 1))).getLastD s.data.length

/-- The normalization didyoumean2 applies with `caseSensitive: false` and
`trimSpaces: true`: trim, then lower-case. -/
def dymNormalize (s : String) : String := jsToLower (jsTrim s)

/-- The didyoumean2 `didYouMean` call as configured throughout the scraper:
`thresholdType: EDIT_DISTANCE` with the given threshold and
`returnType: FIRST_CLOSEST_MATCH` — the first candidate attaining the minimal
edit distance among the candidates within the threshold, or `none` when no
candidate is within the threshold. -/
def didYouMean (input : String) (candidates : List String) (threshold : ℕ) : Option String :=
  let inp := dymNormalize input
  let scored := candidates.map (fun c => (c, levDistance inp (dymNormalize c)))
  match scored.filter (fun p => p.2 ≤ threshold) with
  | [] => none
  | w :: ws =>
    let best := (w :: ws).foldl (fun m p => min m p.2) w.2
    ((w :: ws).find? (fun p => p.2 = best)).map Prod.fst

/-- One iteration of the suburb-matching loop of `formatAddress`
(src/scraper.ts lines 242-249): fuzzy-match the last `index` tokens against
the suburb-dictionary keys with edit-distance threshold 2; on a match remove
those tokens (`tokens.splice(-index, index)`) and return the canonical suburb
string `SuburbNames[match]`.  The dictionary is the association list built
from suburbnames.txt. -/
def trySuburb (suburbNames : List (String × String)) (tokens : List String) (index : ℕ) :
    Option (List String × String) :=
  match didYouMean (String.intercalate " " (tokens.drop (tokens.length - index)))
      (suburbNames.map Prod.fst) 2 with
  | some suburbNameMatch =>
    some (tokens.take (tokens.length - index), (suburbNames.lookup suburbNameMatch).getD "")
  | none => none

/-- The `for (index = 1; index <= 4; index++)` loop of `formatAddress` with its
`break` on the first matching window. -/
def suburbSearch (suburbNames : List (String × String)) (tokens : List String) :
    Option (List String × String) :=
  (trySuburb suburbNames tokens 1).orElse fun _ =>
    (trySuburb suburbNames tokens 2).orElse fun _ =>
      (trySuburb suburbNames tokens 3).orElse fun _ => trySuburb suburbNames tokens 4

/-- The regex test `/^\d,\d\d\d/` from `formatAddress`. -/
def commaNumberTest (s : String) : Bool :=
  match s.data with
  | c0 :: c1 :: c2 :: c3 :: c4 :: _ =>
    c0.isDigit && c1 == ',' && c2.isDigit && c3.isDigit && c4.isDigit
  | _ => false

/-- `address.substring(0, 1) + address.substring(2)` from `formatAddress`:
drop the character at index 1 (the thousands comma). -/
def removeCommaAt1 (s : String) : String :=
  match s.data with
  | c0 :: _ :: rest => ⟨c0 :: rest⟩
  | l => ⟨l⟩

/-- `formatAddress` from src/scraper.ts: trim; reject empty or `LOT:`-prefixed
input; pop tokens from the end until a suburb is fuzzy-recognised (threshold
2, windows of 1 to 4 tokens); reject the address (returning the empty string)
when no suburb is recognised; otherwise append the canonical suburb string to
the remaining tokens and finally remove a leading thousands comma matching
`^\d,\d\d\d`. -/
def formatAddress (suburbNames : List (String × String)) (address0 : String) : String :=
  let address := jsTrim address0
  if (address == "") || jsStartsWith address "LOT:" then ""
  else
    let tokens := jsSplitOnSpace address
    match suburbSearch suburbNames tokens with
    | none => ""
    | some (tokens1, suburbName) =>
      let streetName := jsTrim (String.intercalate " " tokens1)
      let address1 := jsTrim (streetName ++ (if streetName == "" then "" else ", ") ++ suburbName)
      if commaNumberTest address1 then removeCommaAt1 address1 else address1

/-- Modelled from the spec's words for claim C3 only: the same suburb-matching
window as `trySuburb` but with the fuzzy matcher capped at edit distance 1, as
the claim states ("edit distance at most 1").  The implementation uses
threshold 2; this definition exists to witness the difference. -/
def trySuburbClaimD1 (suburbNames : List (String × String)) (tokens : List String) (index : ℕ) :
    Option (List String × String) :=
  match didYouMean (String.intercalate " " (tokens.drop (tokens.length - index)))
      (suburbNames.map Prod.fst) 1 with
  | some suburbNameMatch =>
    some (tokens.take (tokens.length - index), (suburbNames.lookup suburbNameMatch).getD "")
  | none => none

/-- Modelled from the spec's words for claim C3 only: the suburb loop with the
claimed edit-distance-1 matcher. -/
def suburbSearchClaimD1 (suburbNames : List (String × String)) (tokens : List String) :
    Option (List String × String) :=
  (trySuburbClaimD1 suburbNames tokens 1).orElse fun _ =>
    (trySuburbClaimD1 suburbNames tokens 2).orElse fun _ =>
      (trySuburbClaimD1 suburbNames tokens 3).orElse fun _ => trySuburbClaimD1 suburbNames tokens 4

/-- Modelled from the spec's words for claim C3 only: `formatAddress` with the
claimed edit-distance-1 suburb matcher. -/
def formatAddressClaimD1 (suburbNames : List (String × String)) (address0 : String) : String :=
  let address := jsTrim address0
  if (address == "") || jsStartsWith address "LOT:" then ""
  else
    let tokens := jsSplitOnSpace address
    match suburbSearchClaimD1 suburbNames tokens with
    | none => ""
    | some (tokens1, suburbName) =>
      let streetName := jsTrim (String.intercalate " " tokens1)
      let address1 := jsTrim (streetName ++ (if streetName == "" then "" else ", ") ++ suburbName)
      if commaNumberTest address1 then removeCommaAt1 address1 else address1

/-- `Number.MAX_VALUE`, used as the sentinel co-ordinate and distance in
`getRightElement`; modelled as a rational far above any page co-ordinate. -/
def numberMaxValue : ℚ := 2 ^ 1024

/-- `calculateDistance` from src/scraper.ts: squared distance between the
middle of the right edge of `element1` and the middle of the left edge of
`element2`; elements overlapping `element1` horizontally by more than 20% of
its width are pushed to `Number.MAX_VALUE`. -/
def calculateDistance (element1 element2 : Element) : ℚ :=
  let point1x := element1.x + element1.width
  let point1y := element1.y + element1.height / 2
  let point2x := element2.x
  let point2y := element2.y + element2.height / 2
  if point2x < point1x - element1.width / 5 then numberMaxValue
  else (point2x - point1x) * (point2x - point1x) + (point2y - point1y) * (point2y - point1y)

/-- The initial `closestElement` sentinel of `getRightElement` (text
`undefined`, placed at `Number.MAX_VALUE`); the `undefined` text is modelled
by the fold below starting from `none`. -/
def sentinelElement : Element :=
  { text := "", x := numberMaxValue, y := numberMaxValue, width := 0, height := 0 }

/-- `getRightElement` from src/scraper.ts: the nearest element strictly to the
right of `element`, with more than 50% vertical overlap and a horizontal gap
below 30 units; `none` when no element qualifies (the JavaScript test
`closestElement.text === undefined`). -/
def getRightElement (elements : List Element) (element : Element) : Option Element :=
  elements.foldl (fun closestElement rightElement =>
    if isVerticalOverlap element rightElement ∧
        getVerticalOverlapPercentage element rightElement > 50 ∧
        rightElement.x > element.x + element.width ∧
        rightElement.x - (element.x + element.width) < 30 ∧
        calculateDistance element rightElement <
          calculateDistance element (closestElement.getD sentinelElement) then
      some rightElement
    else closestElement) none

/-- `.replace(/[\s,\-_]/g, "").toLowerCase()` applied to the joined text in
`findStartElements`. -/
def cleanMatchText (s : String) : String :=
  jsToLower ⟨s.data.filter (fun c => !(c.isWhitespace || c == ',' || c == '-' || c == '_'))⟩

/-- One entry of the `matches` array in `findStartElements`. -/
structure MatchCandidate where
  element : Element
  threshold : ℕ
  text : String
deriving DecidableEq

/-- The `matches.push` block of `findStartElements`: record the current
joined text as a match at tier 0 (exact), 1 or 2 (edit distance), once it is
at least 9 characters long. -/
def pushMatches (rightElement : Element) (text : String) (matchList : List MatchCandidate) :
    List MatchCandidate :=
  if text.length ≥ 9 then
    if text = "approval:" then matchList ++ [⟨rightElement, 0, text⟩]
    else if (didYouMean text ["Approval:"] 1).isSome then matchList ++ [⟨rightElement, 1, text⟩]
    else if (didYouMean text ["Approval:"] 2).isSome then matchList ++ [⟨rightElement, 2, text⟩]
    else matchList
  else matchList

/-- One iteration of the do-while loop of `findStartElements`: push the
current right element onto the accumulator, stop (recording nothing) once the
cleaned joined text reaches length 11, otherwise record matches and report
whether the loop continues (a right element exists and fewer than 3 elements
have been joined) together with the next loop state. -/
def collectStep (elements : List Element) (rightElement : Element) (acc : List Element)
    (matchList : List MatchCandidate) :
    List MatchCandidate × Option (Element × List Element) :=
  if (cleanMatchText (String.join ((acc ++ [rightElement]).map Element.text))).length ≥ 11 then
    (matchList, none)
  else if (acc ++ [rightElement]).length < 3 then
    match getRightElement elements rightElement with
    | some next =>
      (pushMatches rightElement
        (cleanMatchText (String.join ((acc ++ [rightElement]).map Element.text))) matchList,
        some (next, acc ++ [rightElement]))
    | none =>
      (pushMatches rightElement
        (cleanMatchText (String.join ((acc ++ [rightElement]).map Element.text))) matchList,
        none)
  else
    (pushMatches rightElement
      (cleanMatchText (String.join ((acc ++ [rightElement]).map Element.text))) matchList,
      none)

/-- The do-while loop of `findStartElements`, iterated via `collectStep`.
`fuel` only guarantees termination: called with fuel 3 and an empty
accumulator, the loop's own `rightElements.length < 3` guard always stops
before the fuel runs out. -/
def collectMatchesAux (elements : List Element) :
    ℕ → Element → List Element → List MatchCandidate → List MatchCandidate
  | 0, rightElement, acc, matchList => (collectStep elements rightElement acc matchList).1
  | fuel + 1, rightElement, acc, matchList =>
    match collectStep elements rightElement acc matchList with
    | (ms1, none) => ms1
    | (ms1, some (next, acc1)) => collectMatchesAux elements fuel next acc1 ms1

/-- The comparison inside `matches.reduce(...)` of `findStartElements`:
prefer a strictly lower edit-distance tier, or, at an equal tier, a trimmed
length strictly closer to the length of "Approval:". -/
def betterMatch (previous current : MatchCandidate) : MatchCandidate :=
  if current.threshold < previous.threshold ∨
      (current.threshold = previous.threshold ∧
        Nat.dist (jsTrim current.text).length "Approval:".length <
          Nat.dist (jsTrim previous.text).length "Approval:".length) then
    current
  else previous

/-- `matches.reduce(..., undefined)` from `findStartElements`: JavaScript
`reduce` with an `undefined` initial value is seeded by the first element. -/
def bestMatch : List MatchCandidate → Option MatchCandidate
  | [] => none
  | m :: ms => some (ms.foldl betterMatch m)

/-- The lexicographic preference order realised by `betterMatch`: a lower
tier, or an equal tier and a trimmed length at least as close to the length
of "Approval:". -/
def matchLe (m1 m2 : MatchCandidate) : Prop :=
  m1.threshold < m2.threshold ∨
    (m1.threshold = m2.threshold ∧
      Nat.dist (jsTrim m1.text).length "Approval:".length ≤
        Nat.dist (jsTrim m2.text).length "Approval:".length)

/-- The y-comparator `(a, b) => (a.y > b.y) ? 1 : ((a.y < b.y) ? -1 : 0)`
used to sort the start elements. -/
def elementLeY (a b : Element) : Prop := a.y ≤ b.y

instance : DecidableRel elementLeY := fun a b => inferInstanceAs (Decidable (a.y ≤ b.y))

instance : IsTotal Element elementLeY := ⟨fun a b => le_total a.y b.y⟩

instance : IsTrans Element elementLeY := ⟨fun _ _ _ hab hbc => le_trans hab hbc⟩

/-- `findStartElements` from src/scraper.ts: for every fragment whose trimmed
text starts (case-insensitively) with "a", walk up to 3 fragments rightward
joining their texts, fuzzy-match the cleaned joined text against "Approval:"
at tiers 0, 1 and 2, keep the best match per seed, and return the chosen
elements sorted by ascending y.  JavaScript's sort is stable, and every stable
sort under a total preorder comparator yields the same list, so the stable
insertion sort models it exactly. -/
def findStartElements (elements : List Element) : List Element :=
  let startElements := (elements.filter
      (fun element => jsStartsWith (jsToLower (jsTrim element.text)) "a")).filterMap
    (fun seed => (bestMatch (collectMatchesAux elements 3 seed [] [])).map MatchCandidate.element)
  List.insertionSort elementLeY startElements

/-- `.replace(/\s/g, "")`: remove all whitespace. -/
def removeWhitespace (s : String) : String := ⟨s.data.filter (fun c => !c.isWhitespace)⟩

/-- `.replace(/[Il,]/g, "/")` from `parseApplicationElements`: correct the
OCR-confusable characters capital I, lowercase l and comma to the expected
slash separator. -/
def replaceIlComma (s : String) : String :=
  ⟨s.data.map (fun c => if c = 'I' ∨ c = 'l' ∨ c = ',' then '/' else c)⟩

/-- Flush a pending whitespace run for the replace of runs of two or more
whitespace characters by a single space. -/
def collapseWsFlush (pending : List Char) : List Char :=
  if pending.length ≥ 2 then [' '] else pending

/-- Character-list worker for `.replace(/\s\s+/g, " ")`: runs of two or more
whitespace characters become one space; a lone whitespace character is kept
as it is. -/
def collapseWsAux : List Char → List Char → List Char
  | pending, [] => collapseWsFlush pending
  | pending, c :: rest =>
    if c.isWhitespace then collapseWsAux (pending ++ [c]) rest
    else collapseWsFlush pending ++ c :: collapseWsAux [] rest

/-- `.replace(/\s\s+/g, " ")`. -/
def collapseWs (s : String) : String := ⟨collapseWsAux [] s.data⟩

/-- Flush a pending dot run for the replace of runs of three or more dots by
a single space. -/
def collapseDotsFlush (pending : List Char) : List Char :=
  if pending.length ≥ 3 then [' '] else pending

/-- Character-list worker for `.replace(/\.{3,}/g, " ")`: runs of three or
more dots become one space; shorter runs are kept. -/
def collapseDotsAux : List Char → List Char → List Char
  | pending, [] => collapseDotsFlush pending
  | pending, c :: rest =>
    if c = '.' then collapseDotsAux (pending ++ [c]) rest
    else collapseDotsFlush pending ++ c :: collapseDotsAux [] rest

/-- `.replace(/\.{3,}/g, " ")` (leader dots in the description column). -/
def collapseDots (s : String) : String := ⟨collapseDotsAux [] s.data⟩

/-- Match the tail `/\d\d\/\d\d\d\d ` of the leading-lodged-date regex after
the day digits, returning the remainder after the matched prefix. -/
def dateTailMatch : List Char → Option (List Char)
  | '/' :: m1 :: m2 :: '/' :: y1 :: y2 :: y3 :: y4 :: ' ' :: rest =>
    if m1.isDigit ∧ m2.isDigit ∧ y1.isDigit ∧ y2.isDigit ∧ y3.isDigit ∧ y4.isDigit then
      some rest
    else none
  | _ => none

/-- The replace of a leading lodged date matching the anchored pattern of one
or two day digits, a slash, two month digits, a slash, four year digits and a
space (greedy two-digit day first, then backtracking to one digit, as the
regex engine does). -/
def stripLeadingDate (s : String) : String :=
  match s.data with
  | c1 :: c2 :: rest =>
    if c1.isDigit then
      if c2.isDigit then
        match dateTailMatch rest with
        | some r => ⟨r⟩
        | none =>
          match dateTailMatch (c2 :: rest) with
          | some r => ⟨r⟩
          | none => s
      else
        match dateTailMatch (c2 :: rest) with
        | some r => ⟨r⟩
        | none => s
    else s
  | _ => s

/-- The diagnostic element summary of `parseApplicationElements`: the
concatenation of the fragment texts, each wrapped in square brackets. -/
def elementSummary (elements : List Element) : String :=
  String.join (elements.map (fun element => "[" ++ element.text ++ "]"))

/-- The numeric value of a digit character. -/
def digitVal (c : Char) : ℕ := c.toNat - '0'.toNat

/-- The Gregorian leap-year rule. -/
def isLeapYear (y : ℕ) : Bool := y % 4 == 0 && (!(y % 100 == 0) || y % 400 == 0)

/-- Days in a month, as moment.js uses for date validity. -/
def daysInMonth (m y : ℕ) : ℕ :=
  if m = 2 then (if isLeapYear y then 29 else 28)
  else if m = 4 ∨ m = 6 ∨ m = 9 ∨ m = 11 then 30
  else 31

/-- Calendar validity check for a parsed day/month/year. -/
def checkDate (d m y : ℕ) : Option (ℕ × ℕ × ℕ) :=
  if 1 ≤ m ∧ m ≤ 12 ∧ 1 ≤ d ∧ d ≤ daysInMonth m y then some (d, m, y) else none

/-- Strict parse against the "D/MM/YYYY" moment.js format (a one- or
two-digit day, exactly two month digits, exactly four year digits, nothing
else) with calendar validity: the moment(text, "D/MM/YYYY", true) call of
`parseApplicationElements`. -/
def parseDateDMY (s : String) : Option (ℕ × ℕ × ℕ) :=
  match s.data with
  | [d1, s1, m1, m2, s2, y1, y2, y3, y4] =>
    if s1 = '/' ∧ s2 = '/' ∧ d1.isDigit ∧ m1.isDigit ∧ m2.isDigit ∧
        y1.isDigit ∧ y2.isDigit ∧ y3.isDigit ∧ y4.isDigit then
      checkDate (digitVal d1) (10 * digitVal m1 + digitVal m2)
        (1000 * digitVal y1 + 100 * digitVal y2 + 10 * digitVal y3 + digitVal y4)
    else none
  | [d1, d2, s1, m1, m2, s2, y1, y2, y3, y4] =>
    if s1 = '/' ∧ s2 = '/' ∧ d1.isDigit ∧ d2.isDigit ∧ m1.isDigit ∧ m2.isDigit ∧
        y1.isDigit ∧ y2.isDigit ∧ y3.isDigit ∧ y4.isDigit then
      checkDate (10 * digitVal d1 + digitVal d2) (10 * digitVal m1 + digitVal m2)
        (1000 * digitVal y1 + 100 * digitVal y2 + 10 * digitVal y3 + digitVal y4)
    else none
  | _ => none

/-- Zero-padded two-digit rendering. -/
def pad2 (n : ℕ) : String := if n < 10 then "0" ++ toString n else toString n

/-- Zero-padded four-digit rendering. -/
def pad4 (n : ℕ) : String :=
  if n < 10 then "000" ++ toString n
  else if n < 100 then "00" ++ toString n
  else if n < 1000 then "0" ++ toString n
  else toString n

/-- moment's format("YYYY-MM-DD"). -/
def formatYMD (y m d : ℕ) : String := pad4 y ++ "-" ++ pad2 m ++ "-" ++ pad2 d

/-- The column-heading elements used by `parseApplicationElements`.  In
src/scraper.ts `parsePdf` locates them by text on each page; the per-section
`approval` field is the section's start element and `conditions` may be
absent. -/
structure HeadingElements where
  document : Element
  lodged : Element
  subjectLand : Element
  estimated : Element
  proposal : Element
  approval : Element
  conditions : Option Element
deriving DecidableEq

/-- The development-application record assembled by
`parseApplicationElements`. -/
structure Record where
  applicationNumber : String
  address : String
  description : String
  informationUrl : String
  commentUrl : String
  scrapeDate : String
  receivedDate : String
  legalDescription : String
deriving DecidableEq

/-- The fixed comment contact of the scraper. -/
def CommentUrl : String := "mailto:council@coorong.sa.gov.au"

/-- `elements.reduce(...)` choosing the first element of smallest x; the
JavaScript reduce starts from `undefined`, which an empty list returns. -/
def leftmostElement? (elements : List Element) : Option Element :=
  elements.foldl (fun previous current =>
    match previous with
    | none => some current
    | some p => some (if current.x < p.x then current else p)) none

/-- `elements.reduce(...)` choosing the first element of smallest y. -/
def topmostElement? (elements : List Element) : Option Element :=
  elements.foldl (fun previous current =>
    match previous with
    | none => some current
    | some p => some (if current.y < p.y then current else p)) none

/-- `elements.reduce(...)` choosing the last element of largest y. -/
def bottommostElement? (elements : List Element) : Option Element :=
  elements.foldl (fun previous current =>
    match previous with
    | none => some current
    | some p => some (if current.y ≥ p.y then current else p)) none

/-- The comparer sorting elements by y then x. -/
def elementLeYX (a b : Element) : Prop := a.y < b.y ∨ (a.y = b.y ∧ a.x ≤ b.x)

instance : DecidableRel elementLeYX := fun _ _ => inferInstanceAs (Decidable (_ ∨ _))

/-- `elements.sort(elementComparer)`: stable sort by y then x. -/
def sortByYX (elements : List Element) : List Element := List.insertionSort elementLeYX elements

/-- The application-number bounding rectangle of `parseApplicationElements`. -/
def applicationNumberBounds (heading : HeadingElements) (leftmost topmost : Element) : Rectangle :=
  { x := leftmost.x, y := topmost.y, width := heading.document.width,
    height := leftmost.height * 2 }

/-- The extracted application number (elements at least 10% inside the
bounding rectangle, texts joined, whitespace stripped), before the OCR-glyph
correction. -/
def applicationNumberText (sorted : List Element) (heading : HeadingElements)
    (leftmost topmost : Element) : String :=
  removeWhitespace (String.join ((sorted.filter (fun element =>
    getPercentageOfElementInRectangle element
      (applicationNumberBounds heading leftmost topmost) > 10)).map Element.text))

/-- The received-date bounding rectangle of `parseApplicationElements`. -/
def receivedDateBounds (heading : HeadingElements) (leftmost topmost : Element) : Rectangle :=
  { x := heading.lodged.x, y := topmost.y, width := heading.lodged.width,
    height := leftmost.height * 2 }

/-- The formatted received date: extract the text in the received-date
rectangle, trim, keep the first 10 characters, strip whitespace, parse
strictly as "D/MM/YYYY" and format as "YYYY-MM-DD" when valid, else the
empty string. -/
def receivedDateString (sorted : List Element) (heading : HeadingElements)
    (leftmost topmost : Element) : String :=
  match parseDateDMY (removeWhitespace (String.take (jsTrim (String.join ((sorted.filter
      (fun element => getPercentageOfElementInRectangle element
        (receivedDateBounds heading leftmost topmost) > 10)).map Element.text))) 10)) with
  | some (d, m, y) => formatYMD y m d
  | none => ""

/-- The address bounding rectangle of `parseApplicationElements`. -/
def addressBounds (heading : HeadingElements) (leftmost topmost : Element) : Rectangle :=
  { x := heading.subjectLand.x, y := topmost.y,
    width := heading.estimated.x - heading.subjectLand.x, height := leftmost.height * 3 }

/-- Add an address element to the first row whose first element's y is within
5 units, or start a new row (the grouping loop of
`parseApplicationElements`). -/
def addToRows (rows : List (List Element)) (element : Element) : List (List Element) :=
  match rows.findIdx? (fun row => |(row.headD element).y - element.y| < 5) with
  | none => rows ++ [[element]]
  | some index => rows.set index ((rows.getD index []) ++ [element])

/-- The address and legal-description rows of a section. -/
def addressRowsOf (sorted : List Element) (heading : HeadingElements)
    (leftmost topmost : Element) : List (List Element) :=
  (sorted.filter (fun element => getPercentageOfElementInRectangle element
    (addressBounds heading leftmost topmost) > 10)).foldl addToRows []

/-- A row's text: join, trim, collapse whitespace runs. -/
def rowText (row : List Element) : String :=
  collapseWs (jsTrim (String.join (row.map Element.text)))

/-- The raw address and legal description of a section: first row is the
address (with a leading lodged date stripped), second row the legal
description, swapped when the address starts with "LOT:" and a legal
description exists. -/
def addressAndLegal (sorted : List Element) (heading : HeadingElements)
    (leftmost topmost : Element) : String × String :=
  let addressRows := addressRowsOf sorted heading leftmost topmost
  let address := if addressRows.length < 1 then "" else rowText (addressRows.headD [])
  let legalDescription := if addressRows.length < 2 then "" else rowText (addressRows.getD 1 [])
  let address1 := stripLeadingDate address
  if jsStartsWith (jsTrim address1) "LOT:" && !(legalDescription == "") then
    (legalDescription, address1)
  else (address1, legalDescription)

/-- The description bounding rectangle of `parseApplicationElements` (its
height runs to the "Conditions:" heading when present, else to the bottommost
element). -/
def descriptionBounds (heading : HeadingElements) (topmost bottommost : Element) : Rectangle :=
  { x := heading.proposal.x, y := topmost.y,
    width := heading.approval.x - heading.proposal.x,
    height := (match heading.conditions with
      | none => bottommost.y
      | some conditions => conditions.y) - topmost.y }

/-- The extracted description: texts joined with spaces, leader-dot runs
removed, trimmed, whitespace runs collapsed. -/
def descriptionText (sorted : List Element) (heading : HeadingElements)
    (topmost bottommost : Element) : String :=
  collapseWs (jsTrim (collapseDots (String.intercalate " " ((sorted.filter
    (fun element => getPercentageOfElementInRectangle element
      (descriptionBounds heading topmost bottommost) > 10)).map Element.text))))

/-- The diagnostic logged when the application number is missing. -/
def applicationNumberFailMsg (summary : String) : String :=
  "Could not find the application number on the PDF page for the current development application.  The development application will be ignored.  Elements: " ++ summary

/-- The diagnostic logged when the address is missing or unparseable. -/
def addressFailMsg (applicationNumber summary : String) : String :=
  "Application number " ++ applicationNumber ++
    " will be ignored because an address was not found or parsed.  Elements: " ++ summary

/-- The log line announcing a found application number. -/
def foundMsg (applicationNumber : String) : String :=
  "    Found \"" ++ applicationNumber ++ "\"."

/-- `parseApplicationElements` after the reference elements have been
determined and the elements sorted: the two mandatory-field gates and the
record assembly, together with the console lines produced. -/
def parseApplicationElementsCore (suburbNames : List (String × String)) (sorted : List Element)
    (heading : HeadingElements) (informationUrl scrapeDate : String)
    (leftmost topmost bottommost : Element) : Option Record × List String :=
  if applicationNumberText sorted heading leftmost topmost = "" then
    (none, [applicationNumberFailMsg (elementSummary sorted)])
  else if formatAddress suburbNames (addressAndLegal sorted heading leftmost topmost).1 = "" then
    (none, [foundMsg (replaceIlComma (applicationNumberText sorted heading leftmost topmost)),
      addressFailMsg (replaceIlComma (applicationNumberText sorted heading leftmost topmost))
        (elementSummary sorted)])
  else
    (some {
      applicationNumber := replaceIlComma (applicationNumberText sorted heading leftmost topmost),
      address := formatAddress suburbNames (addressAndLegal sorted heading leftmost topmost).1,
      description := if jsTrim (descriptionText sorted heading topmost bottommost) ≠ "" then
          descriptionText sorted heading topmost bottommost
        else "No Description Provided",
      informationUrl := informationUrl,
      commentUrl := CommentUrl,
      scrapeDate := scrapeDate,
      receivedDate := receivedDateString sorted heading leftmost topmost,
      legalDescription := (addressAndLegal sorted heading leftmost topmost).2 },
      [foundMsg (replaceIlComma (applicationNumberText sorted heading leftmost topmost))])

/-- `parseApplicationElements` from src/scraper.ts, parameterized over the
suburb dictionary (the `SuburbNames` global), the information URL and the
scrape date (`moment().format("YYYY-MM-DD")` at run time), and returning the
console diagnostics alongside the optional record.  On an empty fragment list
the reduce-derived reference elements are `undefined` and the JavaScript
throws a TypeError before anything else; that is modelled as `Except.error`. -/
def parseApplicationElements (suburbNames : List (String × String)) (elements : List Element)
    (heading : HeadingElements) (informationUrl scrapeDate : String) :
    Except String (Option Record × List String) :=
  match leftmostElement? elements, topmostElement? elements, bottommostElement? elements with
  | some leftmost, some topmost, some bottommost =>
    Except.ok (parseApplicationElementsCore suburbNames (sortByYX elements) heading
      informationUrl scrapeDate leftmost topmost bottommost)
  | _, _, _ => Except.error "TypeError: cannot read properties of undefined"

/-- The duplicate-suppression step of `parsePdf` (src/scraper.ts lines
444-452, likewise src/scraper.js lines 213-216): a parsed application is
appended unless an application with the same application number was already
emitted for this document. -/
def addApplication (developmentApplications : List Record)
    (developmentApplication : Record) : List Record :=
  if developmentApplications.any (fun other =>
      other.applicationNumber == developmentApplication.applicationNumber) then
    developmentApplications
  else developmentApplications ++ [developmentApplication]

/-- The accumulation loop of `parsePdf` over the per-section parse outcomes
of one document (all pages, in order): `undefined` outcomes are skipped and
records with duplicate application numbers are dropped. -/
def parsePdfApplications (results : List (Option Record)) : List Record :=
  results.foldl (fun developmentApplications result =>
    match result with
    | none => developmentApplications
    | some developmentApplication =>
      addApplication developmentApplications developmentApplication) []

/-- Claim C9: `intersect` is commutative: for all rectangles `a` and `b`,
`intersect a b` equals `intersect b a`. -/
theorem intersect_comm (a b : Rectangle) : intersect a b = intersect b a := by
  unfold intersect
  rw [max_comm a.x b.x, max_comm a.y b.y, min_comm (a.x + a.width) (b.x + b.width),
    min_comm (a.y + a.height) (b.y + b.height)]

/-- Two disjoint (or merely touching) rectangles intersect in a zero-area
rectangle. -/
theorem getArea_intersect_eq_zero (f : Element) (r : Rectangle)
    (h : f.x + f.width ≤ r.x ∨ r.x + r.width ≤ f.x ∨
         f.y + f.height ≤ r.y ∨ r.y + r.height ≤ f.y) :
    getArea (intersect r f.toRect) = 0 := by
  simp only [intersect, getArea, Element.toRect]
  split
  · rename_i hcond
    rcases h with h | h | h | h
    · have hx : min (r.x + r.width) (f.x + f.width) ≤ max r.x f.x :=
        le_trans (min_le_right _ _) (le_trans h (le_max_left _ _))
      have : min (r.x + r.width) (f.x + f.width) - max r.x f.x = 0 := by
        have := hcond.1
        linarith
      rw [this, zero_mul]
    · have hx : min (r.x + r.width) (f.x + f.width) ≤ max r.x f.x :=
        le_trans (min_le_left _ _) (le_trans h (le_max_right _ _))
      have : min (r.x + r.width) (f.x + f.width) - max r.x f.x = 0 := by
        have := hcond.1
        linarith
      rw [this, zero_mul]
    · have hy : min (r.y + r.height) (f.y + f.height) ≤ max r.y f.y :=
        le_trans (min_le_right _ _) (le_trans h (le_max_left _ _))
      have : min (r.y + r.height) (f.y + f.height) - max r.y f.y = 0 := by
        have := hcond.2
        linarith
      rw [this, mul_zero]
    · have hy : min (r.y + r.height) (f.y + f.height) ≤ max r.y f.y :=
        le_trans (min_le_left _ _) (le_trans h (le_max_right _ _))
      have : min (r.y + r.height) (f.y + f.height) - max r.y f.y = 0 := by
        have := hcond.2
        linarith
      rw [this, mul_zero]
  · exact zero_mul 0

/-- Claim C8: `getPercentageOfElementInRectangle f r` returns 0 when `f` has
zero area, returns 0 when `f` and `r` do not overlap, returns 100 when `f` is
fully contained in `r` (for an element of positive width and height), and in
general equals `100 * area (intersect r f) / area f` whenever `f` has non-zero
area. -/
theorem getPercentageOfElementInRectangle_spec (f : Element) (r : Rectangle) :
    (getArea f.toRect = 0 → getPercentageOfElementInRectangle f r = 0) ∧
    ((f.x + f.width ≤ r.x ∨ r.x + r.width ≤ f.x ∨
      f.y + f.height ≤ r.y ∨ r.y + r.height ≤ f.y) →
      getPercentageOfElementInRectangle f r = 0) ∧
    (0 < f.width → 0 < f.height → r.x ≤ f.x → f.x + f.width ≤ r.x + r.width →
      r.y ≤ f.y → f.y + f.height ≤ r.y + r.height →
      getPercentageOfElementInRectangle f r = 100) ∧
    (getArea f.toRect ≠ 0 →
      getPercentageOfElementInRectangle f r =
        100 * getArea (intersect r f.toRect) / getArea f.toRect) := by
  refine ⟨fun h0 => ?_, fun hdisj => ?_, fun hw hh hx1 hx2 hy1 hy2 => ?_, fun hne => ?_⟩
  · simp only [getPercentageOfElementInRectangle]
    rw [if_pos h0]
  · simp only [getPercentageOfElementInRectangle]
    split
    · rfl
    · rw [getArea_intersect_eq_zero f r hdisj, zero_mul, zero_div]
  · have hinter : intersect r f.toRect = f.toRect := by
      simp only [intersect, Element.toRect]
      rw [max_eq_right hx1, max_eq_right hy1, min_eq_right hx2, min_eq_right hy2]
      rw [if_pos ⟨by linarith, by linarith⟩, add_sub_cancel_left, add_sub_cancel_left]
    have harea : getArea f.toRect = f.width * f.height := rfl
    have hpos : getArea f.toRect ≠ 0 := by
      rw [harea]; exact ne_of_gt (mul_pos hw hh)
    simp only [getPercentageOfElementInRectangle]
    rw [if_neg hpos, hinter, mul_comm, mul_div_assoc, div_self hpos, mul_one]
  · simp only [getPercentageOfElementInRectangle]
    rw [if_neg hne, mul_comm]

/-- Witness for C8: a 2-by-2 element at (1,1) is fully contained in the
10-by-10 rectangle at the origin, and its percentage inside is 100. -/
theorem getPercentageOfElementInRectangle_spec_witness :
    getPercentageOfElementInRectangle ⟨"F", 1, 1, 2, 2⟩ ⟨0, 0, 10, 10⟩ = 100 :=
  (getPercentageOfElementInRectangle_spec ⟨"F", 1, 1, 2, 2⟩ ⟨0, 0, 10, 10⟩).2.2.1
    (by norm_num) (by norm_num) (by norm_num) (by norm_num) (by norm_num) (by norm_num)

/-- Claim C10: `getVerticalOverlapPercentage` divides by the second element's
height without a zero guard: when the second element has height 0 and its y
lies within the first element's vertical span, the overlap height is 0 and the
JavaScript result is 0/0 = NaN (here: `none`, not a real number, in particular
neither 0 nor 100); the function maps into the reals whenever the second
element has positive height; by contrast `getPercentageOfElementInRectangle`
guards its zero-area divisor and always yields a real number. -/
theorem getVerticalOverlapPercentage_no_zero_guard :
    (∀ a b : Element, b.height = 0 → a.y ≤ b.y → b.y ≤ a.y + a.height →
      getVerticalOverlapPercentageJs a b = none) ∧
    (∀ a b : Element, 0 < b.height → (getVerticalOverlapPercentageJs a b).isSome = true) ∧
    (∀ (e : Element) (r : Rectangle), (getPercentageOfElementInRectangleJs e r).isSome = true) := by
  refine ⟨fun a b hb h1 h2 => ?_, fun a b hb => ?_, fun e r => ?_⟩
  · simp only [getVerticalOverlapPercentageJs, jsDiv, hb, add_zero]
    rw [max_eq_right h1, min_eq_right h2, if_neg (lt_irrefl b.y)]
    simp
  · simp only [getVerticalOverlapPercentageJs]
    split
    · rfl
    · simp [jsDiv, ne_of_gt hb]
  · simp only [getPercentageOfElementInRectangleJs]
    split
    · rfl
    · rename_i hne
      simp [jsDiv, hne]

/-- Witness for C10: a zero-height element whose y (5) lies inside the span
[0, 10] of the first element produces the non-real result. -/
theorem getVerticalOverlapPercentage_no_zero_guard_witness :
    getVerticalOverlapPercentageJs ⟨"A", 0, 0, 10, 10⟩ ⟨"B", 0, 5, 10, 0⟩ = none :=
  getVerticalOverlapPercentage_no_zero_guard.1 ⟨"A", 0, 0, 10, 10⟩ ⟨"B", 0, 5, 10, 0⟩
    (by norm_num) (by norm_num) (by norm_num)

/-- An overlap percentage above 50 implies a genuine vertical overlap (and in
particular the loop's preliminary overlap check in `getRowTop` succeeds). -/
theorem overlap_of_pct_gt_50 (s e : Element)
    (h : getVerticalOverlapPercentage s e > 50) :
    e.y < s.y + s.height ∧ e.y + e.height > s.y := by
  simp only [getVerticalOverlapPercentage] at h
  by_cases hlt : min (s.y + s.height) (e.y + e.height) < max s.y e.y
  · rw [if_pos hlt] at h; linarith
  · rw [if_neg hlt] at h
    have hyy : max s.y e.y ≤ min (s.y + s.height) (e.y + e.height) := not_lt.1 hlt
    have hnum : (0:ℚ) ≤ (min (s.y + s.height) (e.y + e.height) - max s.y e.y) * 100 :=
      mul_nonneg (sub_nonneg.2 hyy) (by norm_num)
    have hpos : 0 < e.height := by
      rcases lt_trichotomy e.height 0 with hneg | h0 | hpos
      · have := div_nonpos_iff.mpr (Or.inl ⟨hnum, le_of_lt hneg⟩)
        linarith
      · rw [h0, div_zero] at h; linarith
      · exact hpos
    have h2 : 50 * e.height < (min (s.y + s.height) (e.y + e.height) - max s.y e.y) * 100 :=
      (lt_div_iff₀ hpos).1 h
    have h3 : max s.y e.y < min (s.y + s.height) (e.y + e.height) := by nlinarith
    constructor
    · calc e.y ≤ max s.y e.y := le_max_right _ _
        _ < min (s.y + s.height) (e.y + e.height) := h3
        _ ≤ s.y + s.height := min_le_left _ _
    · calc s.y ≤ max s.y e.y := le_max_left _ _
        _ < min (s.y + s.height) (e.y + e.height) := h3
        _ ≤ e.y + e.height := min_le_right _ _

/-- A positive-height element overlaps itself 100%. -/
theorem getVerticalOverlapPercentage_self (s : Element) (hh : 0 < s.height) :
    getVerticalOverlapPercentage s s = 100 := by
  simp only [getVerticalOverlapPercentage, max_self, min_self]
  rw [if_neg (by linarith), add_sub_cancel_left, mul_comm, mul_div_assoc,
    div_self (ne_of_gt hh), mul_one]

/-- The loop body of `getRowTop` is a guarded minimum: it lowers `top` to the
element's y exactly when the 50% overlap test passes. -/
theorem rowTopStep_eq (s : Element) (top : ℚ) (e : Element) :
    rowTopStep s top e =
      if getVerticalOverlapPercentage s e > 50 then min e.y top else top := by
  by_cases hp : getVerticalOverlapPercentage s e > 50
  · have hov := overlap_of_pct_gt_50 s e hp
    rw [rowTopStep, if_pos hov, if_pos hp, if_pos hp]
    by_cases hlt : e.y < top
    · rw [if_pos hlt, min_eq_left (le_of_lt hlt)]
    · rw [if_neg hlt, min_eq_right (not_lt.1 hlt)]
  · rw [if_neg hp, rowTopStep]
    by_cases hov : e.y < s.y + s.height ∧ e.y + e.height > s.y
    · rw [if_pos hov, if_neg hp]
    · rw [if_neg hov]

/-- Characterization of the fold inside `getRowTop`, for an arbitrary initial
value: the result is the initial value or the y of a passing element, it never
exceeds the initial value, and it is a lower bound of the passing elements. -/
theorem getRowTop_foldl (s : Element) (l : List Element) :
    ∀ init : ℚ,
      (l.foldl (rowTopStep s) init = init ∨
        ∃ e ∈ l, getVerticalOverlapPercentage s e > 50 ∧ l.foldl (rowTopStep s) init = e.y) ∧
      l.foldl (rowTopStep s) init ≤ init ∧
      (∀ e ∈ l, getVerticalOverlapPercentage s e > 50 → l.foldl (rowTopStep s) init ≤ e.y) := by
  induction l with
  | nil => exact fun init => ⟨Or.inl rfl, le_refl _, fun e he => absurd he (List.not_mem_nil e)⟩
  | cons a l ih =>
    intro init
    rw [List.foldl_cons]
    obtain ⟨ih1, ih2, ih3⟩ := ih (rowTopStep s init a)
    have hstep_le : rowTopStep s init a ≤ init := by
      rw [rowTopStep_eq]
      split
      · exact min_le_right _ _
      · exact le_refl _
    refine ⟨?_, le_trans ih2 hstep_le, ?_⟩
    · by_cases hp : getVerticalOverlapPercentage s a > 50
      · have hsa : rowTopStep s init a = min a.y init := by rw [rowTopStep_eq, if_pos hp]
        rcases ih1 with heq | ⟨e, he, hpe, heq⟩
        · rcases min_cases a.y init with ⟨hm, _⟩ | ⟨hm, _⟩
          · exact Or.inr ⟨a, List.mem_cons_self a l, hp, by rw [heq, hsa, hm]⟩
          · exact Or.inl (by rw [heq, hsa, hm])
        · exact Or.inr ⟨e, List.mem_cons_of_mem a he, hpe, heq⟩
      · have hsa : rowTopStep s init a = init := by rw [rowTopStep_eq, if_neg hp]
        rcases ih1 with heq | ⟨e, he, hpe, heq⟩
        · exact Or.inl (by rw [heq, hsa])
        · exact Or.inr ⟨e, List.mem_cons_of_mem a he, hpe, heq⟩
    · intro e he hpe
      rcases List.mem_cons.1 he with rfl | he'
      · have hstep : rowTopStep s init e ≤ e.y := by
          rw [rowTopStep_eq, if_pos hpe]
          exact min_le_left _ _
        exact le_trans ih2 hstep
      · exact ih3 e he' hpe

/-- Claim C6: for a start fragment of positive height occurring among the
fragments, `getRowTop` equals the minimum y among the fragments whose vertical
overlap percentage with the start fragment exceeds 50 (it is attained by such a
fragment and bounds them all from below); any abnormally tall fragment (at
least twice the start fragment's height, as one spanning the whole page is)
has overlap percentage at most 50 with the start fragment; and adding one
fragment whose overlap percentage with the start fragment is at most 50 (at
either end of the list) does not change the value of `getRowTop`. -/
theorem getRowTop_spec (elements : List Element) (start : Element)
    (hmem : start ∈ elements) (hh : 0 < start.height) :
    (∃ e ∈ elements, getVerticalOverlapPercentage start e > 50 ∧
      getRowTop elements start = e.y) ∧
    (∀ e ∈ elements, getVerticalOverlapPercentage start e > 50 →
      getRowTop elements start ≤ e.y) ∧
    (∀ tall : Element, 2 * start.height ≤ tall.height →
      getVerticalOverlapPercentage start tall ≤ 50) ∧
    (∀ tall : Element, getVerticalOverlapPercentage start tall ≤ 50 →
      getRowTop (tall :: elements) start = getRowTop elements start ∧
      getRowTop (elements ++ [tall]) start = getRowTop elements start) := by
  obtain ⟨h1, h2, h3⟩ := getRowTop_foldl start elements start.y
  refine ⟨?_, h3, ?_, ?_⟩
  case refine_2 =>
    intro tall htall2
    simp only [getVerticalOverlapPercentage]
    split
    · norm_num
    · rename_i hge
      have hpos : 0 < tall.height := by linarith
      rw [div_le_iff₀ hpos]
      have hspan : min (start.y + start.height) (tall.y + tall.height) - max start.y tall.y ≤
          start.height := by
        have ha := min_le_left (start.y + start.height) (tall.y + tall.height)
        have hb := le_max_left start.y tall.y
        linarith
      linarith
  · rcases h1 with heq | ⟨e, he, hpe, heq⟩
    · exact ⟨start, hmem, by rw [getVerticalOverlapPercentage_self start hh]; norm_num, heq⟩
    · exact ⟨e, he, hpe, heq⟩
  · intro tall htall
    have hstep : rowTopStep start start.y tall = start.y := by
      rw [rowTopStep_eq, if_neg (not_lt.2 htall)]
    constructor
    · show (tall :: elements).foldl (rowTopStep start) start.y = _
      rw [List.foldl_cons, hstep]
      rfl
    · show (elements ++ [tall]).foldl (rowTopStep start) start.y = _
      rw [List.foldl_append]
      show List.foldl (rowTopStep start) (getRowTop elements start) [tall] = _
      rw [List.foldl_cons, List.foldl_nil, rowTopStep_eq, if_neg (not_lt.2 htall)]

/-- Witness for C6: adding an abnormally tall fragment (height 1000, spanning
the whole page, overlap percentage 1 with the start fragment) leaves the row
top unchanged. -/
theorem getRowTop_spec_witness :
    getRowTop (⟨"T", 0, 0, 10, 1000⟩ :: [⟨"S", 0, 100, 10, 10⟩]) ⟨"S", 0, 100, 10, 10⟩ =
      getRowTop [⟨"S", 0, 100, 10, 10⟩] ⟨"S", 0, 100, 10, 10⟩ :=
  ((getRowTop_spec [⟨"S", 0, 100, 10, 10⟩] ⟨"S", 0, 100, 10, 10⟩
      (List.mem_singleton.2 rfl) (by norm_num)).2.2.2 ⟨"T", 0, 0, 10, 1000⟩
      ((getRowTop_spec [⟨"S", 0, 100, 10, 10⟩] ⟨"S", 0, 100, 10, 10⟩
        (List.mem_singleton.2 rfl) (by norm_num)).2.2.1 ⟨"T", 0, 0, 10, 1000⟩
        (by norm_num))).1

/-- Folding a running minimum over the scored candidates bounds every score. -/
theorem foldl_min_spec (l : List (String × ℕ)) :
    ∀ a : ℕ, l.foldl (fun m p => min m p.2) a ≤ a ∧
      ∀ p ∈ l, l.foldl (fun m p => min m p.2) a ≤ p.2 := by
  induction l with
  | nil => exact fun a => ⟨le_refl _, fun p hp => absurd hp (List.not_mem_nil p)⟩
  | cons q l ih =>
    intro a
    rw [List.foldl_cons]
    obtain ⟨ih1, ih2⟩ := ih (min a q.2)
    refine ⟨le_trans ih1 (min_le_left _ _), fun p hp => ?_⟩
    rcases List.mem_cons.1 hp with rfl | hp'
    · exact le_trans ih1 (min_le_right _ _)
    · exact ih2 p hp'

/-- `didYouMean` against a single candidate succeeds exactly when the edit
distance of the normalized strings is within the threshold. -/
theorem didYouMean_single (t c : String) (k : ℕ) :
    didYouMean t [c] k =
      if levDistance (dymNormalize t) (dymNormalize c) ≤ k then some c else none := by
  simp only [didYouMean, List.map]
  by_cases h : levDistance (dymNormalize t) (dymNormalize c) ≤ k
  · rw [if_pos h]
    simp [List.filter, h]
  · rw [if_neg h]
    simp [List.filter, h]

/-- `didYouMean` returns no match when every candidate is beyond the
threshold. -/
theorem didYouMean_none_of_far (input : String) (candidates : List String) (k : ℕ)
    (h : ∀ c ∈ candidates, k < levDistance (dymNormalize input) (dymNormalize c)) :
    didYouMean input candidates k = none := by
  simp only [didYouMean]
  have hfil : (candidates.map fun c => (c, levDistance (dymNormalize input) (dymNormalize c))).filter
      (fun p => p.2 ≤ k) = [] := by
    rw [List.filter_eq_nil_iff]
    intro p hp
    simp only [List.mem_map] at hp
    obtain ⟨c, hc, rfl⟩ := hp
    simp [not_le.2 (h c hc)]
  rw [hfil]

/-- A successful `didYouMean` match is a candidate within the threshold whose
edit distance is minimal among all candidates. -/
theorem didYouMean_some_spec (input : String) (candidates : List String) (k : ℕ) (key : String)
    (h : didYouMean input candidates k = some key) :
    key ∈ candidates ∧ levDistance (dymNormalize input) (dymNormalize key) ≤ k ∧
      ∀ c ∈ candidates, levDistance (dymNormalize input) (dymNormalize key) ≤
        levDistance (dymNormalize input) (dymNormalize c) := by
  simp only [didYouMean] at h
  cases hw : (candidates.map fun c => (c, levDistance (dymNormalize input) (dymNormalize c))).filter
      (fun p => p.2 ≤ k) with
  | nil => rw [hw] at h; exact absurd h (by simp)
  | cons w ws =>
    rw [hw] at h
    obtain ⟨p, hfind, hp1⟩ := Option.map_eq_some'.1 h
    have hp_mem : p ∈ w :: ws := List.mem_of_find?_eq_some hfind
    have hp_best : p.2 = (w :: ws).foldl (fun m q => min m q.2) w.2 := by
      have := List.find?_some hfind
      simpa using this
    have hp_filter : p ∈ (candidates.map fun c =>
        (c, levDistance (dymNormalize input) (dymNormalize c))).filter (fun p => p.2 ≤ k) := by
      rw [hw]; exact hp_mem
    have hp_scored := (List.mem_filter.1 hp_filter).1
    have hp_le : p.2 ≤ k := by
      have := (List.mem_filter.1 hp_filter).2
      simpa using this
    obtain ⟨c0, hc0, hc0eq⟩ := List.mem_map.1 hp_scored
    have hkey : c0 = key := by rw [← hp1, ← hc0eq]
    have hd : levDistance (dymNormalize input) (dymNormalize key) = p.2 := by
      rw [← hkey, ← hc0eq]
    subst hkey
    refine ⟨hc0, by rw [hd]; exact hp_le, ?_⟩
    intro c hc
    rw [hd]
    by_cases hck : levDistance (dymNormalize input) (dymNormalize c) ≤ k
    · have hq_mem : (c, levDistance (dymNormalize input) (dymNormalize c)) ∈
          (candidates.map fun c => (c, levDistance (dymNormalize input) (dymNormalize c))).filter
            (fun p => p.2 ≤ k) := by
        rw [List.mem_filter]
        exact ⟨List.mem_map_of_mem _ hc, by simpa using hck⟩
      rw [hw] at hq_mem
      have hbound := (foldl_min_spec (w :: ws) w.2).2 _ hq_mem
      calc p.2 = _ := hp_best
        _ ≤ _ := hbound
    · exact le_trans hp_le (le_of_lt (not_le.1 hck))

set_option maxRecDepth 8000

/-- Counterexample to claim C3 as stated: the suburb-matching loop accepts the
token "MENINGIEAB" at edit distance 2 from the dictionary key "MENINGIE",
which the claimed edit-distance-at-most-1 matcher (`suburbSearchClaimD1`,
modelled from the spec's words) rejects, so the two normalizers disagree on
the address "1 MAIN ROAD MENINGIEAB". -/
theorem suburbSearch_threshold_counterexample :
    suburbSearch [("MENINGIE", "MENINGIE SA 5264")] ["1", "MAIN", "ROAD", "MENINGIEAB"] =
      some (["1", "MAIN", "ROAD"], "MENINGIE SA 5264") ∧
    suburbSearchClaimD1 [("MENINGIE", "MENINGIE SA 5264")] ["1", "MAIN", "ROAD", "MENINGIEAB"] =
      none ∧
    formatAddress [("MENINGIE", "MENINGIE SA 5264")] "1 MAIN ROAD MENINGIEAB" =
      "1 MAIN ROAD, MENINGIE SA 5264" ∧
    formatAddressClaimD1 [("MENINGIE", "MENINGIE SA 5264")] "1 MAIN ROAD MENINGIEAB" = "" :=
  ⟨by decide, by decide, by decide, by decide⟩

/-- Claim C3 (amended: the fuzzy threshold is edit distance at most 2, not 1):
suburb resolution tests the windows of the last 1, 2, 3, then 4 tokens in
increasing size; it fails only when every window fails; the first matching
window wins; a window match removes exactly those last tokens and uses the
dictionary's canonical suburb string; and the window matcher accepts exactly
the candidates within edit distance 2, returning one at minimal distance. -/
theorem suburbSearch_first_match (d : List (String × String)) (tokens : List String) :
    ((∀ i, 1 ≤ i → i ≤ 4 → trySuburb d tokens i = none) → suburbSearch d tokens = none) ∧
    (∀ i r, 1 ≤ i → i ≤ 4 → (∀ j, 1 ≤ j → j < i → trySuburb d tokens j = none) →
      trySuburb d tokens i = some r → suburbSearch d tokens = some r) ∧
    (∀ index key, didYouMean (String.intercalate " " (tokens.drop (tokens.length - index)))
        (d.map Prod.fst) 2 = some key →
      trySuburb d tokens index =
        some (tokens.take (tokens.length - index), (d.lookup key).getD "")) ∧
    (∀ input, (∀ c ∈ d.map Prod.fst, 2 < levDistance (dymNormalize input) (dymNormalize c)) →
      didYouMean input (d.map Prod.fst) 2 = none) ∧
    (∀ input key, didYouMean input (d.map Prod.fst) 2 = some key →
      key ∈ d.map Prod.fst ∧ levDistance (dymNormalize input) (dymNormalize key) ≤ 2 ∧
        ∀ c ∈ d.map Prod.fst, levDistance (dymNormalize input) (dymNormalize key) ≤
          levDistance (dymNormalize input) (dymNormalize c)) := by
  refine ⟨fun hall => ?_, fun i r h1 h4 hj hi => ?_, fun index key hk => ?_,
    fun input hfar => didYouMean_none_of_far input (d.map Prod.fst) 2 hfar,
    fun input key hk => didYouMean_some_spec input (d.map Prod.fst) 2 key hk⟩
  · simp [suburbSearch, Option.orElse, hall 1 (by norm_num) (by norm_num),
      hall 2 (by norm_num) (by norm_num), hall 3 (by norm_num) (by norm_num),
      hall 4 (by norm_num) (by norm_num)]
  · interval_cases i
    · simp [suburbSearch, Option.orElse, hi]
    · simp [suburbSearch, Option.orElse, hj 1 (by norm_num) (by norm_num), hi]
    · simp [suburbSearch, Option.orElse, hj 1 (by norm_num) (by norm_num),
        hj 2 (by norm_num) (by norm_num), hi]
    · simp [suburbSearch, Option.orElse, hj 1 (by norm_num) (by norm_num),
        hj 2 (by norm_num) (by norm_num), hj 3 (by norm_num) (by norm_num), hi]
  · simp only [trySuburb, hk]

/-- Witness for the amended C3: with the single-entry dictionary the window of
the last 1 token matches first and removes exactly that token. -/
theorem suburbSearch_first_match_witness :
    suburbSearch [("MENINGIE", "MENINGIE SA 5264")] ["1", "MAIN", "ROAD", "MENINGIE"] =
      some (["1", "MAIN", "ROAD"], "MENINGIE SA 5264") :=
  (suburbSearch_first_match [("MENINGIE", "MENINGIE SA 5264")]
      ["1", "MAIN", "ROAD", "MENINGIE"]).2.1 1 (["1", "MAIN", "ROAD"], "MENINGIE SA 5264")
    (le_refl 1) (by norm_num)
    (fun j hj1 hj2 => absurd (lt_of_le_of_lt hj1 hj2) (lt_irrefl 1))
    (by decide)

/-- Counterexample to claim C4 as stated: on the input
"4,665 Princes HWY MENINGIE 5264" the normalizer of src/scraper.ts does not
produce an address carrying the house number 4665 — suburb resolution runs
first, fails on the trailing postcode token, and the whole address is
rejected as empty (the thousands-comma rewrite sits after suburb resolution,
not before it). -/
theorem formatAddress_comma_counterexample :
    formatAddress [("MENINGIE", "MENINGIE SA 5264")] "4,665 Princes HWY MENINGIE 5264" = "" ∧
    ∀ rest post : String,
      formatAddress [("MENINGIE", "MENINGIE SA 5264")] "4,665 Princes HWY MENINGIE 5264" ≠
        rest ++ "4665" ++ post := by
  have h0 : formatAddress [("MENINGIE", "MENINGIE SA 5264")]
      "4,665 Princes HWY MENINGIE 5264" = "" := by decide
  refine ⟨h0, fun rest post h => ?_⟩
  rw [h0] at h
  have hlen := congrArg String.length h
  simp only [String.length_append] at hlen
  have h4 : ("4665" : String).length = 4 := by decide
  have h00 : ("" : String).length = 0 := by decide
  omega

/-- Claim C4 (amended): the thousands-comma rewrite of `formatAddress` runs
after suburb resolution on the composed address, so on
"4,665 Princes HWY MENINGIE" (where the suburb resolves) the result carries
the plain house number 4665, while with the trailing postcode "5264" present
suburb resolution fails and the address is rejected as empty. -/
theorem formatAddress_comma_after_suburb :
    formatAddress [("MENINGIE", "MENINGIE SA 5264")] "4,665 Princes HWY MENINGIE" =
      "4665 Princes HWY, MENINGIE SA 5264" ∧
    formatAddress [("MENINGIE", "MENINGIE SA 5264")] "4,665 Princes HWY MENINGIE 5264" = "" :=
  ⟨by decide, by decide⟩

/-- Counterexample to claim C5 as stated: when suburb resolution fails on the
non-empty input "1 UNKNOWN PLACE NOWHERE", `formatAddress` returns the empty
string — not the claimed fallback address (which, with no postcode found,
would be the original non-empty string). -/
theorem formatAddress_fallback_counterexample :
    formatAddress [("MENINGIE", "MENINGIE SA 5264")] "1 UNKNOWN PLACE NOWHERE" = "" ∧
    ("1 UNKNOWN PLACE NOWHERE" : String) ≠ "" :=
  ⟨by decide, by decide⟩

/-- Claim C5 (amended): when suburb resolution fails during address
normalization of a non-empty input (not starting with "LOT:"), `formatAddress`
returns the empty string, discarding the record; no fallback address is
produced. -/
theorem formatAddress_suburb_fail_returns_empty (d : List (String × String)) (address : String)
    (h1 : jsTrim address ≠ "") (h2 : jsStartsWith (jsTrim address) "LOT:" = false)
    (h3 : suburbSearch d (jsSplitOnSpace (jsTrim address)) = none) :
    formatAddress d address = "" := by
  have hc : ((jsTrim address == "") || jsStartsWith (jsTrim address) "LOT:") = false := by
    rw [Bool.or_eq_false_iff]
    exact ⟨beq_eq_false_iff_ne.mpr h1, h2⟩
  simp only [formatAddress, hc, Bool.false_eq_true, if_false, h3]

/-- Witness for the amended C5: a concrete non-empty address whose suburb is
not recognised normalizes to the empty string. -/
theorem formatAddress_suburb_fail_returns_empty_witness :
    formatAddress [("MENINGIE", "MENINGIE SA 5264")] "12 SMITH STREET ZZZZ" = "" :=
  formatAddress_suburb_fail_returns_empty [("MENINGIE", "MENINGIE SA 5264")]
    "12 SMITH STREET ZZZZ" (by decide) (by decide) (by decide)

/-- `didYouMean` against a single candidate is some exactly when the edit
distance of the normalized strings is within the threshold. -/
theorem didYouMean_single_isSome (t c : String) (k : ℕ) :
    (didYouMean t [c] k).isSome = true ↔
      levDistance (dymNormalize t) (dymNormalize c) ≤ k := by
  rw [didYouMean_single]
  split
  · rename_i h; simpa using h
  · rename_i h; simpa using h

/-- Every member of `pushMatches re text ml` is an old member or a recorded
match of the appropriate tier on `text` itself (of length between 9 and 10,
given that the caller only pushes below length 11). -/
theorem mem_pushMatches_prop (re : Element) (text : String) (ml : List MatchCandidate)
    (m : MatchCandidate) (hlen : text.length < 11) (h : m ∈ pushMatches re text ml) :
    m ∈ ml ∨ (9 ≤ m.text.length ∧ m.text.length ≤ 10 ∧
      ((m.threshold = 0 ∧ m.text = "approval:") ∨
       (m.threshold = 1 ∧ m.text ≠ "approval:" ∧
         levDistance (dymNormalize m.text) (dymNormalize "Approval:") ≤ 1) ∨
       (m.threshold = 2 ∧
         levDistance (dymNormalize m.text) (dymNormalize "Approval:") = 2))) := by
  unfold pushMatches at h
  by_cases h9 : text.length ≥ 9
  · rw [if_pos h9] at h
    by_cases hex : text = "approval:"
    · rw [if_pos hex] at h
      rcases List.mem_append.1 h with hm | hm
      · exact Or.inl hm
      · rw [List.mem_singleton] at hm
        have hmt : m.text = text := by rw [hm]
        have hth : m.threshold = 0 := by rw [hm]
        exact Or.inr ⟨by rw [hmt]; exact h9, by rw [hmt]; omega, Or.inl ⟨hth, by rw [hmt]; exact hex⟩⟩
    · rw [if_neg hex] at h
      by_cases hd1 : (didYouMean text ["Approval:"] 1).isSome = true
      · rw [if_pos hd1] at h
        rcases List.mem_append.1 h with hm | hm
        · exact Or.inl hm
        · rw [List.mem_singleton] at hm
          have hmt : m.text = text := by rw [hm]
          have hth : m.threshold = 1 := by rw [hm]
          exact Or.inr ⟨by rw [hmt]; exact h9, by rw [hmt]; omega,
            Or.inr (Or.inl ⟨hth, by rw [hmt]; exact hex,
              by rw [hmt]; exact (didYouMean_single_isSome text "Approval:" 1).1 hd1⟩)⟩
      · rw [if_neg hd1] at h
        by_cases hd2 : (didYouMean text ["Approval:"] 2).isSome = true
        · rw [if_pos hd2] at h
          rcases List.mem_append.1 h with hm | hm
          · exact Or.inl hm
          · rw [List.mem_singleton] at hm
            have hmt : m.text = text := by rw [hm]
            have hth : m.threshold = 2 := by rw [hm]
            have hle2 := (didYouMean_single_isSome text "Approval:" 2).1 hd2
            have hgt1 : ¬ levDistance (dymNormalize text) (dymNormalize "Approval:") ≤ 1 :=
              fun hcon => hd1 ((didYouMean_single_isSome text "Approval:" 1).2 hcon)
            exact Or.inr ⟨by rw [hmt]; exact h9, by rw [hmt]; omega,
              Or.inr (Or.inr ⟨hth, by rw [hmt]; omega⟩)⟩
        · rw [if_neg hd2] at h
          exact Or.inl h
  · rw [if_neg h9] at h
    exact Or.inl h

/-- `pushMatches` records at most one new match. -/
theorem pushMatches_length (re : Element) (text : String) (ml : List MatchCandidate) :
    (pushMatches re text ml).length ≤ ml.length + 1 := by
  unfold pushMatches
  split
  · split
    · simp
    · split
      · simp
      · split
        · simp
        · omega
  · omega

/-- Every member of a `collectStep` result is an old member or a recorded
match of the appropriate tier. -/
theorem collectStep_mem (elements : List Element) (re : Element) (acc : List Element)
    (ml : List MatchCandidate) (m : MatchCandidate)
    (h : m ∈ (collectStep elements re acc ml).1) :
    m ∈ ml ∨ (9 ≤ m.text.length ∧ m.text.length ≤ 10 ∧
      ((m.threshold = 0 ∧ m.text = "approval:") ∨
       (m.threshold = 1 ∧ m.text ≠ "approval:" ∧
         levDistance (dymNormalize m.text) (dymNormalize "Approval:") ≤ 1) ∨
       (m.threshold = 2 ∧
         levDistance (dymNormalize m.text) (dymNormalize "Approval:") = 2))) := by
  unfold collectStep at h
  split at h
  · exact Or.inl h
  · rename_i hlen
    split at h
    · cases hgr : getRightElement elements re with
      | none =>
        rw [hgr] at h
        exact mem_pushMatches_prop re _ ml m (by omega) h
      | some next =>
        rw [hgr] at h
        exact mem_pushMatches_prop re _ ml m (by omega) h
    · exact mem_pushMatches_prop re _ ml m (by omega) h

/-- A `collectStep` result records at most one new match. -/
theorem collectStep_length (elements : List Element) (re : Element) (acc : List Element)
    (ml : List MatchCandidate) :
    (collectStep elements re acc ml).1.length ≤ ml.length + 1 := by
  unfold collectStep
  split
  · simp
  · split
    · cases hgr : getRightElement elements re with
      | none => exact pushMatches_length re _ ml
      | some next => exact pushMatches_length re _ ml
    · exact pushMatches_length re _ ml

/-- A continuing `collectStep` pushes the current element onto the accumulator
and keeps it below 3 elements. -/
theorem collectStep_continue (elements : List Element) (re : Element) (acc : List Element)
    (ml : List MatchCandidate) (next : Element) (acc1 : List Element)
    (h : (collectStep elements re acc ml).2 = some (next, acc1)) :
    acc1 = acc ++ [re] ∧ acc1.length < 3 := by
  unfold collectStep at h
  split at h
  · exact absurd h (by simp)
  · split at h
    · rename_i hlt
      cases hgr : getRightElement elements re with
      | none =>
        rw [hgr] at h
        exact absurd h (by simp)
      | some next2 =>
        rw [hgr] at h
        have h2 : some (next2, acc ++ [re]) = some (next, acc1) := h
        obtain ⟨hn, ha⟩ := Prod.mk.injEq .. ▸ Option.some.inj h2
        exact ⟨ha.symm, ha ▸ hlt⟩
    · exact absurd h (by simp)

/-- Every match collected by the `findStartElements` loop is a recorded match
of the appropriate tier (run with an empty initial match list, membership in
the initial list is impossible). -/
theorem collectMatchesAux_mem (elements : List Element) :
    ∀ (fuel : ℕ) (re : Element) (acc : List Element) (ms : List MatchCandidate)
      (m : MatchCandidate), m ∈ collectMatchesAux elements fuel re acc ms →
      m ∈ ms ∨ (9 ≤ m.text.length ∧ m.text.length ≤ 10 ∧
        ((m.threshold = 0 ∧ m.text = "approval:") ∨
         (m.threshold = 1 ∧ m.text ≠ "approval:" ∧
           levDistance (dymNormalize m.text) (dymNormalize "Approval:") ≤ 1) ∨
         (m.threshold = 2 ∧
           levDistance (dymNormalize m.text) (dymNormalize "Approval:") = 2))) := by
  intro fuel
  induction fuel with
  | zero =>
    intro re acc ms m hm
    exact collectStep_mem elements re acc ms m hm
  | succ f ih =>
    intro re acc ms m hm
    simp only [collectMatchesAux] at hm
    cases hstep : collectStep elements re acc ms with
    | mk ms1 cont =>
      rw [hstep] at hm
      cases cont with
      | none =>
        have hm1 : m ∈ ms1 := hm
        exact collectStep_mem elements re acc ms m (by rw [hstep]; exact hm1)
      | some p =>
        cases p with
        | mk next acc1 =>
          have hm1 : m ∈ collectMatchesAux elements f next acc1 ms1 := hm
          rcases ih next acc1 ms1 m hm1 with hms1 | hprop
          · exact collectStep_mem elements re acc ms m (by rw [hstep]; exact hms1)
          · exact Or.inr hprop

/-- The `findStartElements` loop records at most 3 matches (one per joined
fragment): bound on the collected match list. -/
theorem collectMatchesAux_length (elements : List Element) :
    ∀ (fuel : ℕ) (re : Element) (acc : List Element) (ms : List MatchCandidate),
      acc.length ≤ 2 →
      (collectMatchesAux elements fuel re acc ms).length ≤ ms.length + (3 - acc.length) := by
  intro fuel
  induction fuel with
  | zero =>
    intro re acc ms hacc
    have h1 := collectStep_length elements re acc ms
    have h2 : collectMatchesAux elements 0 re acc ms = (collectStep elements re acc ms).1 := rfl
    rw [h2]
    omega
  | succ f ih =>
    intro re acc ms hacc
    simp only [collectMatchesAux]
    cases hstep : collectStep elements re acc ms with
    | mk ms1 cont =>
      have hlen1 : ms1.length ≤ ms.length + 1 := by
        have h1 := collectStep_length elements re acc ms
        rw [hstep] at h1
        exact h1
      cases cont with
      | none =>
        show ms1.length ≤ ms.length + (3 - acc.length)
        omega
      | some p =>
        cases p with
        | mk next acc1 =>
          obtain ⟨heq, hlt⟩ := collectStep_continue elements re acc ms next acc1 (by rw [hstep])
          have hlen2 : acc1.length = acc.length + 1 := by rw [heq]; simp
          have hrec := ih next acc1 ms1 (by omega)
          show (collectMatchesAux elements f next acc1 ms1).length ≤ ms.length + (3 - acc.length)
          omega

/-- `matchLe` is reflexive. -/
theorem matchLe_refl (m : MatchCandidate) : matchLe m m := Or.inr ⟨rfl, le_refl _⟩

/-- `matchLe` is transitive. -/
theorem matchLe_trans (m1 m2 m3 : MatchCandidate) (h1 : matchLe m1 m2) (h2 : matchLe m2 m3) :
    matchLe m1 m3 := by
  rcases h1 with h1 | ⟨h1a, h1b⟩ <;> rcases h2 with h2 | ⟨h2a, h2b⟩
  · exact Or.inl (lt_trans h1 h2)
  · exact Or.inl (h2a ▸ h1)
  · exact Or.inl (h1a ▸ h2)
  · exact Or.inr ⟨h1a.trans h2a, le_trans h1b h2b⟩

/-- `betterMatch` returns one of its arguments and prefers it under
`matchLe`. -/
theorem betterMatch_le (previous current : MatchCandidate) :
    (betterMatch previous current = previous ∨ betterMatch previous current = current) ∧
    matchLe (betterMatch previous current) previous ∧
    matchLe (betterMatch previous current) current := by
  unfold betterMatch
  split
  · rename_i h
    refine ⟨Or.inr rfl, ?_, matchLe_refl _⟩
    rcases h with h | ⟨ha, hb⟩
    · exact Or.inl h
    · exact Or.inr ⟨ha, le_of_lt hb⟩
  · rename_i h
    push_neg at h
    refine ⟨Or.inl rfl, matchLe_refl _, ?_⟩
    rcases lt_or_eq_of_le h.1 with hlt | heq
    · exact Or.inl hlt
    · exact Or.inr ⟨heq, h.2 heq.symm⟩

/-- The JavaScript `reduce` step of `findStartElements` computes a `matchLe`
lower bound of the match list that is itself in the list (or the seed). -/
theorem foldl_betterMatch_spec (ms : List MatchCandidate) :
    ∀ b : MatchCandidate,
      (ms.foldl betterMatch b = b ∨ ms.foldl betterMatch b ∈ ms) ∧
      matchLe (ms.foldl betterMatch b) b ∧
      ∀ m2 ∈ ms, matchLe (ms.foldl betterMatch b) m2 := by
  induction ms with
  | nil => exact fun b => ⟨Or.inl rfl, matchLe_refl b, fun m2 h => absurd h (List.not_mem_nil m2)⟩
  | cons a l ih =>
    intro b
    rw [List.foldl_cons]
    obtain ⟨ih1, ih2, ih3⟩ := ih (betterMatch b a)
    obtain ⟨hba, hlep, hlec⟩ := betterMatch_le b a
    refine ⟨?_, ?_, ?_⟩
    · rcases ih1 with h | h
      · rcases hba with h2 | h2
        · exact Or.inl (h.trans h2)
        · exact Or.inr (by rw [h, h2]; exact List.mem_cons_self a l)
      · exact Or.inr (List.mem_cons_of_mem a h)
    · exact matchLe_trans _ _ _ ih2 hlep
    · intro m2 hm2
      rcases List.mem_cons.1 hm2 with rfl | hm2'
      · exact matchLe_trans _ _ _ ih2 hlec
      · exact ih3 m2 hm2'

/-- `bestMatch` (the `matches.reduce` of `findStartElements`) returns a match
from the list that is `matchLe`-minimal: it has the lowest edit-distance tier,
and among matches at that tier a trimmed length closest to that of
"Approval:", choosing the earliest on ties. -/
theorem bestMatch_spec (ms : List MatchCandidate) (m : MatchCandidate)
    (h : bestMatch ms = some m) : m ∈ ms ∧ ∀ m2 ∈ ms, matchLe m m2 := by
  cases ms with
  | nil => exact absurd h (by simp [bestMatch])
  | cons a l =>
    simp only [bestMatch, Option.some.injEq] at h
    subst h
    obtain ⟨h1, h2, h3⟩ := foldl_betterMatch_spec l a
    constructor
    · rcases h1 with h | h
      · rw [h]; exact List.mem_cons_self a l
      · exact List.mem_cons_of_mem a h
    · intro m2 hm2
      rcases List.mem_cons.1 hm2 with rfl | hm2'
      · exact h2
      · exact h3 m2 hm2'

/-- Claim C7: `findStartElements` considers only fragments whose trimmed text
starts (case-insensitively) with the first letter of "Approval:" (an input
with no such fragment yields no start elements, and every returned element
arises from the best match of such a seed's chain); the rightward chain
records at most 3 matches, each recorded once the concatenated cleaned text
reaches length 9 and before it reaches length 11 (too long), at edit-distance
tier 0 (exact "approval:"), else 1, else 2 against "Approval:"; the chosen
match is `matchLe`-minimal (lowest tier, then trimmed length closest to that
of "Approval:"); and the returned start elements are sorted in ascending y
order. -/
theorem findStartElements_spec (elements : List Element) :
    List.Sorted elementLeY (findStartElements elements) ∧
    ((∀ e ∈ elements, jsStartsWith (jsToLower (jsTrim e.text)) "a" = false) →
      findStartElements elements = []) ∧
    (∀ s ∈ findStartElements elements, ∃ seed ∈ elements,
      jsStartsWith (jsToLower (jsTrim seed.text)) "a" = true ∧
      ∃ m, bestMatch (collectMatchesAux elements 3 seed [] []) = some m ∧ m.element = s) ∧
    (∀ (seed : Element) (m : MatchCandidate), m ∈ collectMatchesAux elements 3 seed [] [] →
      9 ≤ m.text.length ∧ m.text.length ≤ 10 ∧
      ((m.threshold = 0 ∧ m.text = "approval:") ∨
       (m.threshold = 1 ∧ m.text ≠ "approval:" ∧
         levDistance (dymNormalize m.text) (dymNormalize "Approval:") ≤ 1) ∨
       (m.threshold = 2 ∧
         levDistance (dymNormalize m.text) (dymNormalize "Approval:") = 2))) ∧
    (∀ seed : Element, (collectMatchesAux elements 3 seed [] []).length ≤ 3) ∧
    (∀ (ms : List MatchCandidate) (m : MatchCandidate), bestMatch ms = some m →
      m ∈ ms ∧ ∀ m2 ∈ ms, matchLe m m2) := by
  refine ⟨?_, ?_, ?_, ?_, ?_, fun ms m h => bestMatch_spec ms m h⟩
  · exact List.sorted_insertionSort elementLeY _
  · intro h
    have hfil : elements.filter
        (fun element => jsStartsWith (jsToLower (jsTrim element.text)) "a") = [] := by
      rw [List.filter_eq_nil_iff]
      intro e he
      simp [h e he]
    simp [findStartElements, hfil]
  · intro s hs
    simp only [findStartElements] at hs
    rw [(List.perm_insertionSort elementLeY _).mem_iff] at hs
    obtain ⟨seed, hseedmem, hmap⟩ := List.mem_filterMap.1 hs
    obtain ⟨hse, hpred⟩ := List.mem_filter.1 hseedmem
    obtain ⟨m, hbm, hel⟩ := Option.map_eq_some'.1 hmap
    exact ⟨seed, hse, hpred, m, hbm, hel⟩
  · intro seed m hm
    rcases collectMatchesAux_mem elements 3 seed [] [] m hm with habs | hprop
    · exact absurd habs (List.not_mem_nil m)
    · exact hprop
  · intro seed
    have := collectMatchesAux_length elements 3 seed [] [] (by simp)
    simpa using this

/-- Witness for C7: a fragment list with no text starting with "a" yields no
start elements. -/
theorem findStartElements_spec_witness :
    findStartElements [⟨"Lodged", 0, 0, 30, 10⟩, ⟨"7/02/2019", 40, 0, 40, 10⟩] = [] :=
  (findStartElements_spec [⟨"Lodged", 0, 0, 30, 10⟩, ⟨"7/02/2019", 40, 0, 40, 10⟩]).2.1
    (by decide)

/-- A JavaScript reduce from an `undefined` initial value over a non-empty
list is the fold of its combining function seeded by the first element. -/
theorem foldl_option_some (f : Element → Element → Element) :
    ∀ (l : List Element) (a : Element),
      l.foldl (fun previous current => match previous with
        | none => some current
        | some p => some (f p current)) (some a) = some (l.foldl f a) := by
  intro l
  induction l with
  | nil => intro a; rfl
  | cons b l ih => intro a; rw [List.foldl_cons, List.foldl_cons]; exact ih (f a b)

/-- The leftmost-element reduce is defined on a non-empty list. -/
theorem leftmostElement?_cons (a : Element) (l : List Element) :
    leftmostElement? (a :: l) =
      some (l.foldl (fun p c => if c.x < p.x then c else p) a) := by
  unfold leftmostElement?
  rw [List.foldl_cons]
  exact foldl_option_some (fun p c => if c.x < p.x then c else p) l a

/-- The topmost-element reduce is defined on a non-empty list. -/
theorem topmostElement?_cons (a : Element) (l : List Element) :
    topmostElement? (a :: l) =
      some (l.foldl (fun p c => if c.y < p.y then c else p) a) := by
  unfold topmostElement?
  rw [List.foldl_cons]
  exact foldl_option_some (fun p c => if c.y < p.y then c else p) l a

/-- The bottommost-element reduce is defined on a non-empty list. -/
theorem bottommostElement?_cons (a : Element) (l : List Element) :
    bottommostElement? (a :: l) =
      some (l.foldl (fun p c => if c.y ≥ p.y then c else p) a) := by
  unfold bottommostElement?
  rw [List.foldl_cons]
  exact foldl_option_some (fun p c => if c.y ≥ p.y then c else p) l a

/-- The OCR-glyph correction never empties a non-empty application number. -/
theorem replaceIlComma_ne_empty (s : String) (h : s ≠ "") : replaceIlComma s ≠ "" := by
  intro hc
  apply h
  have hd : s.data.map (fun c => if c = 'I' ∨ c = 'l' ∨ c = ',' then '/' else c) = [] :=
    congrArg String.data hc
  have hnil : s.data = [] := List.map_eq_nil_iff.1 hd
  exact congrArg String.mk hnil

set_option maxHeartbeats 1000000 in
/-- Claim C1: `parseApplicationElements` emits a record only when both the
extracted application number and the formatted address are non-empty strings;
whenever it instead returns no record (`undefined`), one of its diagnostics
lists all the section's fragment texts (it ends with the bracketed element
summary); and on a non-empty fragment list the function returns normally
rather than raising an error. -/
theorem parseApplicationElements_spec (suburbNames : List (String × String))
    (elements : List Element) (heading : HeadingElements)
    (informationUrl scrapeDate : String) :
    (elements ≠ [] → (parseApplicationElements suburbNames elements heading
      informationUrl scrapeDate).isOk = true) ∧
    (∀ record logs, parseApplicationElements suburbNames elements heading informationUrl
        scrapeDate = Except.ok (some record, logs) →
      record.applicationNumber ≠ "" ∧ record.address ≠ "") ∧
    (∀ logs, parseApplicationElements suburbNames elements heading informationUrl scrapeDate =
        Except.ok (none, logs) →
      ∃ msg ∈ logs, ∃ firstPart, msg = firstPart ++ elementSummary (sortByYX elements)) := by
  refine ⟨?_, ?_, ?_⟩
  · intro hne
    cases elements with
    | nil => exact absurd rfl hne
    | cons a l =>
      simp only [parseApplicationElements, leftmostElement?_cons, topmostElement?_cons,
        bottommostElement?_cons]
      rfl
  · intro record logs h
    unfold parseApplicationElements at h
    cases hl : leftmostElement? elements with
    | none => rw [hl] at h; exact absurd h (by simp)
    | some leftmost =>
      cases ht : topmostElement? elements with
      | none => rw [hl, ht] at h; exact absurd h (by simp)
      | some topmost =>
        cases hb : bottommostElement? elements with
        | none => rw [hl, ht, hb] at h; exact absurd h (by simp)
        | some bottommost =>
          rw [hl, ht, hb] at h
          have hcore : parseApplicationElementsCore suburbNames (sortByYX elements) heading
              informationUrl scrapeDate leftmost topmost bottommost = (some record, logs) :=
            Except.ok.inj h
          unfold parseApplicationElementsCore at hcore
          by_cases h1 : applicationNumberText (sortByYX elements) heading leftmost topmost = ""
          · rw [if_pos h1] at hcore
            exact absurd (congrArg Prod.fst hcore) (by simp)
          · rw [if_neg h1] at hcore
            by_cases h2 : formatAddress suburbNames
                (addressAndLegal (sortByYX elements) heading leftmost topmost).1 = ""
            · rw [if_pos h2] at hcore
              exact absurd (congrArg Prod.fst hcore) (by simp)
            · rw [if_neg h2] at hcore
              have hrec := Option.some.inj (congrArg Prod.fst hcore)
              constructor
              · rw [← hrec]
                dsimp only
                exact replaceIlComma_ne_empty _ h1
              · rw [← hrec]
                dsimp only
                exact h2
  · intro logs h
    unfold parseApplicationElements at h
    cases hl : leftmostElement? elements with
    | none => rw [hl] at h; exact absurd h (by simp)
    | some leftmost =>
      cases ht : topmostElement? elements with
      | none => rw [hl, ht] at h; exact absurd h (by simp)
      | some topmost =>
        cases hb : bottommostElement? elements with
        | none => rw [hl, ht, hb] at h; exact absurd h (by simp)
        | some bottommost =>
          rw [hl, ht, hb] at h
          have hcore : parseApplicationElementsCore suburbNames (sortByYX elements) heading
              informationUrl scrapeDate leftmost topmost bottommost = (none, logs) :=
            Except.ok.inj h
          unfold parseApplicationElementsCore at hcore
          by_cases h1 : applicationNumberText (sortByYX elements) heading leftmost topmost = ""
          · rw [if_pos h1] at hcore
            have hlogs : [applicationNumberFailMsg (elementSummary (sortByYX elements))] = logs :=
              congrArg Prod.snd hcore
            refine ⟨applicationNumberFailMsg (elementSummary (sortByYX elements)), ?_, ?_⟩
            · rw [← hlogs]
              exact List.mem_singleton.2 rfl
            · exact ⟨"Could not find the application number on the PDF page for the current development application.  The development application will be ignored.  Elements: ", rfl⟩
          · rw [if_neg h1] at hcore
            by_cases h2 : formatAddress suburbNames
                (addressAndLegal (sortByYX elements) heading leftmost topmost).1 = ""
            · rw [if_pos h2] at hcore
              have hlogs : [foundMsg (replaceIlComma (applicationNumberText (sortByYX elements)
                    heading leftmost topmost)),
                  addressFailMsg (replaceIlComma (applicationNumberText (sortByYX elements)
                    heading leftmost topmost)) (elementSummary (sortByYX elements))] = logs :=
                congrArg Prod.snd hcore
              refine ⟨addressFailMsg (replaceIlComma (applicationNumberText (sortByYX elements)
                  heading leftmost topmost)) (elementSummary (sortByYX elements)), ?_, ?_⟩
              · rw [← hlogs]
                exact List.mem_cons_of_mem _ (List.mem_singleton.2 rfl)
              · exact ⟨"Application number " ++ replaceIlComma (applicationNumberText
                  (sortByYX elements) heading leftmost topmost) ++
                  " will be ignored because an address was not found or parsed.  Elements: ", rfl⟩
            · rw [if_neg h2] at hcore
              exact absurd (congrArg Prod.fst hcore) (by simp)

/-- Witness for C1: on a non-empty fragment list the parser returns normally
(no thrown error). -/
theorem parseApplicationElements_spec_witness :
    (parseApplicationElements [("MENINGIE", "MENINGIE SA 5264")] [⟨"45/2019", 0, 0, 10, 10⟩]
      ⟨⟨"Document", 0, 0, 10, 10⟩, ⟨"Lodged", 12, 0, 10, 10⟩, ⟨"Subject Land", 24, 0, 10, 10⟩,
        ⟨"Estimated", 36, 0, 10, 10⟩, ⟨"Proposal", 48, 0, 10, 10⟩, ⟨"Approval:", 60, 0, 10, 10⟩,
        none⟩
      "http://example.org/pdf" "2019-03-01").isOk = true :=
  (parseApplicationElements_spec [("MENINGIE", "MENINGIE SA 5264")] [⟨"45/2019", 0, 0, 10, 10⟩]
      ⟨⟨"Document", 0, 0, 10, 10⟩, ⟨"Lodged", 12, 0, 10, 10⟩, ⟨"Subject Land", 24, 0, 10, 10⟩,
        ⟨"Estimated", 36, 0, 10, 10⟩, ⟨"Proposal", 48, 0, 10, 10⟩, ⟨"Approval:", 60, 0, 10, 10⟩,
        none⟩
      "http://example.org/pdf" "2019-03-01").1 (by simp)

/-- The `parsePdf` accumulation loop only appends: the accumulator is a
prefix of the result. -/
theorem parsePdf_foldl_prefix (results : List (Option Record)) :
    ∀ acc : List Record, ∃ t, results.foldl (fun developmentApplications result =>
      match result with
      | none => developmentApplications
      | some developmentApplication =>
        addApplication developmentApplications developmentApplication) acc = acc ++ t := by
  induction results with
  | nil => exact fun acc => ⟨[], by simp⟩
  | cons o rest ih =>
    intro acc
    rw [List.foldl_cons]
    cases o with
    | none => exact ih acc
    | some da =>
      show ∃ t, rest.foldl _ (addApplication acc da) = acc ++ t
      by_cases hany : (acc.any fun other =>
          other.applicationNumber == da.applicationNumber) = true
      · have hstep : addApplication acc da = acc := by
          unfold addApplication
          rw [if_pos hany]
        rw [hstep]
        exact ih acc
      · have hstep : addApplication acc da = acc ++ [da] := by
          unfold addApplication
          rw [if_neg hany]
        rw [hstep]
        obtain ⟨t, ht⟩ := ih (acc ++ [da])
        exact ⟨[da] ++ t, by rw [ht, List.append_assoc]⟩

/-- `addApplication` preserves distinctness of the application numbers. -/
theorem addApplication_nodup (apps : List Record) (da : Record)
    (h : (apps.map Record.applicationNumber).Nodup) :
    ((addApplication apps da).map Record.applicationNumber).Nodup := by
  unfold addApplication
  split
  · exact h
  · rename_i hany
    rw [List.map_append, List.nodup_append]
    refine ⟨h, List.nodup_singleton _, ?_⟩
    intro n hn1 hn2
    simp only [List.map_cons, List.map_nil, List.mem_singleton] at hn2
    subst hn2
    apply hany
    obtain ⟨r, hr, hrn⟩ := List.mem_map.1 hn1
    exact List.any_eq_true.2 ⟨r, hr, beq_iff_eq.2 hrn⟩

/-- The `parsePdf` accumulation loop preserves distinctness of the
application numbers. -/
theorem parsePdf_foldl_nodup (results : List (Option Record)) :
    ∀ acc : List Record, (acc.map Record.applicationNumber).Nodup →
      ((results.foldl (fun developmentApplications result =>
        match result with
        | none => developmentApplications
        | some developmentApplication =>
          addApplication developmentApplications developmentApplication)
        acc).map Record.applicationNumber).Nodup := by
  induction results with
  | nil => exact fun acc h => h
  | cons o rest ih =>
    intro acc h
    rw [List.foldl_cons]
    cases o with
    | none => exact ih acc h
    | some da => exact ih (addApplication acc da) (addApplication_nodup acc da h)

/-- Invariant of the `parsePdf` accumulation loop: every accumulated record
is the first among the already-parsed applications bearing its application
number, and every parsed application's number is represented in the
accumulator. -/
theorem parsePdf_foldl_find (results : List (Option Record)) :
    ∀ (acc processed : List Record),
      (∀ r ∈ acc, processed.find?
        (fun s => s.applicationNumber == r.applicationNumber) = some r) →
      (∀ s ∈ processed, s.applicationNumber ∈ acc.map Record.applicationNumber) →
      ∀ r ∈ results.foldl (fun developmentApplications result =>
          match result with
          | none => developmentApplications
          | some developmentApplication =>
            addApplication developmentApplications developmentApplication) acc,
        (processed ++ results.filterMap id).find?
          (fun s => s.applicationNumber == r.applicationNumber) = some r := by
  induction results with
  | nil =>
    intro acc processed hI hcover r hr
    simpa using hI r hr
  | cons o rest ih =>
    intro acc processed hI hcover r hr
    rw [List.foldl_cons] at hr
    cases o with
    | none =>
      have hres := ih acc processed hI hcover r hr
      simpa using hres
    | some da =>
      have hgoal : processed ++ (some da :: rest).filterMap id =
          (processed ++ [da]) ++ rest.filterMap id := by simp
      rw [hgoal]
      refine ih (addApplication acc da) (processed ++ [da]) ?_ ?_ r hr
      · intro r2 hr2
        unfold addApplication at hr2
        split at hr2
        · rw [List.find?_append, hI r2 hr2]
          rfl
        · rename_i hany
          rcases List.mem_append.1 hr2 with hr2a | hr2b
          · rw [List.find?_append, hI r2 hr2a]
            rfl
          · rw [List.mem_singleton] at hr2b
            subst hr2b
            have hnone : processed.find?
                (fun s => s.applicationNumber == r2.applicationNumber) = none := by
              rw [List.find?_eq_none]
              intro s hs hbeq
              apply hany
              have hsn : s.applicationNumber = r2.applicationNumber := beq_iff_eq.1 hbeq
              have hmem := hcover s hs
              rw [hsn] at hmem
              obtain ⟨r3, hr3, hr3n⟩ := List.mem_map.1 hmem
              exact List.any_eq_true.2 ⟨r3, hr3, beq_iff_eq.2 hr3n⟩
            rw [List.find?_append, hnone]
            simp
      · intro s hs
        rcases List.mem_append.1 hs with hsa | hsb
        · have hmem := hcover s hsa
          unfold addApplication
          split
          · exact hmem
          · rw [List.map_append]
            exact List.mem_append_left _ hmem
        · rw [List.mem_singleton] at hsb
          subst hsb
          unfold addApplication
          split
          · rename_i hany
            obtain ⟨r3, hr3, hbeq⟩ := List.any_eq_true.1 hany
            have hr3n : r3.applicationNumber = s.applicationNumber := beq_iff_eq.1 hbeq
            rw [← hr3n]
            exact List.mem_map_of_mem _ hr3
          · rw [List.map_append]
            exact List.mem_append_right _ (by simp)

/-- Every parsed application's number is represented in the loop's output. -/
theorem parsePdf_foldl_cover (results : List (Option Record)) :
    ∀ acc : List Record, ∀ s : Record, some s ∈ results →
      ∃ r ∈ results.foldl (fun developmentApplications result =>
          match result with
          | none => developmentApplications
          | some developmentApplication =>
            addApplication developmentApplications developmentApplication) acc,
        r.applicationNumber = s.applicationNumber := by
  induction results with
  | nil => exact fun acc s hs => absurd hs (List.not_mem_nil _)
  | cons o rest ih =>
    intro acc s hs
    rw [List.foldl_cons]
    rcases List.mem_cons.1 hs with heq | hmem
    · cases o with
      | none => exact absurd heq (by simp)
      | some da =>
        have hda : s = da := Option.some.inj heq
        subst hda
        have hr0 : ∃ r0 ∈ addApplication acc s, r0.applicationNumber = s.applicationNumber := by
          unfold addApplication
          split
          · rename_i hany
            obtain ⟨r3, hr3, hbeq⟩ := List.any_eq_true.1 hany
            exact ⟨r3, hr3, beq_iff_eq.1 hbeq⟩
          · exact ⟨s, List.mem_append_right _ (by simp), rfl⟩
        obtain ⟨r0, hr0mem, hr0n⟩ := hr0
        obtain ⟨t, ht⟩ := parsePdf_foldl_prefix rest (addApplication acc s)
        exact ⟨r0, by rw [ht]; exact List.mem_append_left _ hr0mem, hr0n⟩
    · cases o with
      | none => exact ih acc s hmem
      | some da => exact ih (addApplication acc da) s hmem

/-- Claim C2: over the per-section outcomes of one document, the `parsePdf`
loop emits records with pairwise-distinct application numbers; every emitted
record is the first parsed application bearing its number (a later
application with an already-emitted number is silently dropped); and every
parsed application's number is represented, so two sections sharing one
number yield exactly one record. -/
theorem parsePdfApplications_spec (results : List (Option Record)) :
    ((parsePdfApplications results).map Record.applicationNumber).Nodup ∧
    (∀ r ∈ parsePdfApplications results,
      (results.filterMap id).find?
        (fun s => s.applicationNumber == r.applicationNumber) = some r) ∧
    (∀ s : Record, some s ∈ results → ∃ r ∈ parsePdfApplications results,
      r.applicationNumber = s.applicationNumber) := by
  refine ⟨?_, ?_, ?_⟩
  · exact parsePdf_foldl_nodup results [] (by simp)
  · intro r hr
    have hres := parsePdf_foldl_find results [] [] (by simp) (by simp) r hr
    simpa using hres
  · exact fun s hs => parsePdf_foldl_cover results [] s hs

/-- Witness for C2: two parsed applications sharing the number "45/2019"
yield exactly the first-emitted record, which the find-first characterization
returns. -/
theorem parsePdfApplications_spec_witness :
    (List.filterMap id
      [some (⟨"45/2019", "1 MAIN ROAD, MENINGIE SA 5264", "Shed", "u", "c", "2019-03-01",
          "2019-02-07", "Lot 1"⟩ : Record),
        none,
        some ⟨"45/2019", "OTHER ADDRESS", "Garage", "u", "c", "2019-03-01", "", "Lot 2"⟩]).find?
      (fun s => s.applicationNumber ==
        (⟨"45/2019", "1 MAIN ROAD, MENINGIE SA 5264", "Shed", "u", "c", "2019-03-01",
          "2019-02-07", "Lot 1"⟩ : Record).applicationNumber) =
      some ⟨"45/2019", "1 MAIN ROAD, MENINGIE SA 5264", "Shed", "u", "c", "2019-03-01",
        "2019-02-07", "Lot 1"⟩ :=
  (parsePdfApplications_spec
    [some ⟨"45/2019", "1 MAIN ROAD, MENINGIE SA 5264", "Shed", "u", "c", "2019-03-01",
        "2019-02-07", "Lot 1"⟩,
      none,
      some ⟨"45/2019", "OTHER ADDRESS", "Garage", "u", "c", "2019-03-01", "", "Lot 2"⟩]).2.1
    ⟨"45/2019", "1 MAIN ROAD, MENINGIE SA 5264", "Shed", "u", "c", "2019-03-01",
      "2019-02-07", "Lot 1"⟩ (by decide)
